import Mathlib

/-!
# es-writer: the consume / batch / flush loop of `Dog` (src/dog.go)

A shallow embedding of `Dog.Start`, `Dog.woof`, `Dog.woooof` and `Dog.flush`.

* Go `error` values are `Option String`: `none` is `nil`, `some msg` is an error whose
  `Error()` text is `msg`.
* The broker channel `w.ch`, the bulk processor `w.bulk`, the services built on `w.es` and
  `time.Sleep` are observed through one ordered trace of `Event`s kept in the state.
* The answers of the cluster are oracles: the error returned by the k-th call of
  `bulk.Flush()` and by the k-th call of `service.Do(ctx)`.
* `logrus` calls have no effect on the state and are left out.
* `Dog.Start` is its `for { select }` loop run over a finite sequence of ticks and
  deliveries; the ticker and the `w.messages(flags)` set-up before the loop are not modelled.
* Durations are whole seconds; delivery tags (`uint64`) are natural numbers, and no
  arithmetic is done on them.
-/

namespace EsWriter

/-! ## Go library functions -/

/-- Go `strings.Contains` on lists of characters: `sub` occurs as a contiguous block of `s`. -/
def containsChars (sub : List Char) : List Char → Bool
  | [] => sub.isEmpty
  | c :: s => sub.isPrefixOf (c :: s) || containsChars sub s

/-- Go `strings.Contains(s, substr)`. -/
def strings_Contains (s substr : String) : Bool :=
  containsChars substr.data s.data

/-! ## Package `action` (not under src) -/

/-- Modelled from the spec: `action.Element`, the parsed form of one broker message. The
source reads its field `DeliveryTag` and its method `RequestType()`; the remaining parsed
fields are kept as one uninterpreted `Payload`. -/
structure Element where
  DeliveryTag : Nat
  RequestType : String
  Payload : String
  deriving DecidableEq, Repr

/-- Modelled from the spec: `action.Container`, the ordered buffer of bulkable elements
(append to the tail, length, iterate in insertion order, clear). -/
structure Container where
  elements : List Element
  deriving DecidableEq, Repr

/-- Modelled from the spec: `action.NewContainer()`, the empty buffer. -/
def NewContainer : Container := ⟨[]⟩

/-- Modelled from the spec: `Container.Add`, append to the tail. -/
def Container.Add (c : Container) (e : Element) : Container := ⟨c.elements ++ [e]⟩

/-- Modelled from the spec: `Container.Length`. -/
def Container.Length (c : Container) : Int := (c.elements.length : Int)

/-- Modelled from the spec: `Container.Elements`, the elements in insertion order. -/
def Container.Elements (c : Container) : List Element := c.elements

/-- Modelled from the spec: `Container.Clear`, drop every element. -/
def Container.Clear (_c : Container) : Container := ⟨[]⟩

/-! ## Environment: the parser, the service factories and the cluster -/

/-- What `Dog` calls and does not define: the parser and service factories of package
`action` (parameters: their code is not under src) and the answers of the cluster. -/
structure Env where
  /-- `action.NewElement(tag, body)`. -/
  NewElement : Nat → String → Except String Element
  /-- The error of `element.UpdateByQueryService(w.es)`, `none` when the service is built. -/
  UpdateByQueryService : Element → Option String
  /-- The error of `element.DeleteByQueryService(w.es)`. -/
  DeleteByQueryService : Element → Option String
  /-- The error of `element.IndicesCreateService(w.es)`. -/
  IndicesCreateService : Element → Option String
  /-- The error of `element.IndicesDeleteService(w.es)`. -/
  IndicesDeleteService : Element → Option String
  /-- The error returned by the k-th call of `w.bulk.Flush()` (k from 0). -/
  bulkFlush : Nat → Option String
  /-- The error returned by the k-th call of `service.Do(ctx)` (k from 0). -/
  serviceDo : Nat → Option String

/-! ## Observable events and the state of `Dog` -/

/-- One observable interaction of the loop with the broker, the cluster or the clock. -/
inductive Event where
  /-- `m := <-messages`: a delivery is taken from the channel. -/
  | Recv (tag : Nat) (body : String)
  /-- `w.bulk.Add(element)`. -/
  | BulkAdd (e : Element)
  /-- `w.bulk.Flush()` returned `err`. -/
  | BulkFlush (err : Option String)
  /-- `service.Do(ctx)` for the service built from `e` returned `err`. -/
  | Do (e : Element) (err : Option String)
  /-- `time.Sleep(seconds * time.Second)`. -/
  | Sleep (seconds : Nat)
  /-- `w.ch.Ack(tag, multiple)`. -/
  | Ack (tag : Nat) (multiple : Bool)
  /-- `w.ch.Nack(tag, multiple, requeue)`. -/
  | Nack (tag : Nat) (multiple : Bool) (requeue : Bool)
  deriving DecidableEq, Repr

/-- The struct `Dog`: `debug`, `count`, `actions`; the channel, the client and the bulk
processor are represented by the trace of calls made on them and by the number of answers
already taken from each oracle. -/
structure Dog where
  debug : Bool
  count : Int
  actions : Container
  trace : List Event
  flushCalls : Nat
  doCalls : Nat
  deriving DecidableEq, Repr

/-- `NewDog(ch, count, es, bulk, debug)`: an empty buffer and nothing observed yet. -/
def NewDog (count : Int) (debug : Bool) : Dog :=
  { debug := debug, count := count, actions := NewContainer, trace := [],
    flushCalls := 0, doCalls := 0 }

/-- `Dog.UnitWorks`: the length of the buffer. -/
def Dog.UnitWorks (w : Dog) : Int := w.actions.Length

/-- Record one event at the end of the trace. -/
def Dog.emit (w : Dog) (ev : Event) : Dog := { w with trace := w.trace ++ [ev] }

/-! ## `Dog.flush` -/

/-- The first loop of `Dog.flush`: collect the delivery tags and `bulk.Add` every element. -/
def flushCollect (w : Dog) (es : List Element) : List Nat × Dog :=
  es.foldl (fun acc element => (acc.1 ++ [element.DeliveryTag], acc.2.emit (.BulkAdd element)))
    ([], w)

/-- The second loop of `Dog.flush`: `w.ch.Ack(deliveryTag, true)` for every collected tag. -/
def flushAcks (w : Dog) (deliveryTags : List Nat) : Dog :=
  deliveryTags.foldl (fun d deliveryTag => d.emit (.Ack deliveryTag true)) w

/-- `Dog.flush` (src/dog.go 206-227). -/
def Dog.flush (env : Env) (w : Dog) : Dog :=
  let collected := flushCollect w w.actions.Elements
  let deliveryTags := collected.1
  let w1 := collected.2
  let err := env.bulkFlush w1.flushCalls
  let w2 := { w1.emit (.BulkFlush err) with flushCalls := w1.flushCalls + 1 }
  match err with
  | none =>
    let w3 := flushAcks w2 deliveryTags
    { w3 with actions := w3.actions.Clear }
  | some _ => w2

/-! ## `Dog.woooof` -/

/-- The schedule `conflictRetryIntervals`, in seconds. -/
def conflictRetryIntervals : List Nat := [1, 2, 3, 7, 0]

/-- The `for ... range conflictRetryIntervals` loop of `Dog.woooof`: `err` is the value of
the variable `err` when the remaining intervals are about to be visited. -/
def retryLoop (env : Env) (element : Element) : List Nat → Dog → Option String → Dog × Option String
  | [], w, err => (w, err)
  | conflictRetryInterval :: rest, w, _ =>
    let err := env.serviceDo w.doCalls
    let w1 := { w.emit (.Do element err) with doCalls := w.doCalls + 1 }
    match err with
    | none => (w1, none)
    | some msg =>
      if strings_Contains msg "Error 409 (Conflict)" then
        retryLoop env element rest (w1.emit (.Sleep conflictRetryInterval)) (some msg)
      else
        retryLoop env element rest w1 (some msg)

/-- One `service.Do(ctx)` call. -/
def doOnce (env : Env) (element : Element) (w : Dog) : Dog × Option String :=
  let err := env.serviceDo w.doCalls
  ({ w.emit (.Do element err) with doCalls := w.doCalls + 1 }, err)

/-- `Dog.woooof` (src/dog.go 123-204): the state after the call and the returned error. -/
def Dog.woooof (env : Env) (w : Dog) (requestType : String) (element : Element) :
    Dog × Option String :=
  if requestType = "update_by_query" then
    match env.UpdateByQueryService element with
    | some err => (w, some err)
    | none => retryLoop env element conflictRetryIntervals w none
  else if requestType = "delete_by_query" then
    match env.DeleteByQueryService element with
    | some err => (w, some err)
    | none => retryLoop env element conflictRetryIntervals w none
  else if requestType = "indices_create" then
    match env.IndicesCreateService element with
    | some err => (w, some err)
    | none =>
      match doOnce env element w with
      | (w1, some msg) =>
        if strings_Contains msg "already exists" then (w1, none) else (w1, some msg)
      | (w1, none) => (w1, none)
  else if requestType = "indices_delete" then
    match env.IndicesDeleteService element with
    | some err => (w, some err)
    | none =>
      match doOnce env element w with
      | (w1, some msg) =>
        if strings_Contains msg "[type=index_not_found_exception]" then (w1, none)
        else (w1, some msg)
      | (w1, none) => (w1, none)
  else
    (w, some ("unsupported request type: " ++ requestType))

/-! ## `Dog.woof` and the loop of `Dog.Start` -/

/-- The barrier of `Dog.woof` before a non-bulkable request (src/dog.go 95-101): with a
non-empty buffer, flush and sleep two seconds. -/
def Dog.barrier (env : Env) (w : Dog) : Dog :=
  if w.actions.Length > 0 then (w.flush env).emit (.Sleep 2) else w

/-- `Dog.woof` (src/dog.go 86-121) for the delivery `(tag, body)`. -/
def Dog.woof (env : Env) (w : Dog) (tag : Nat) (body : String) : Dog × Option String :=
  match env.NewElement tag body with
  | .error err => (w, some err)
  | .ok element =>
    let requestType := element.RequestType
    if "bulkable" ≠ requestType then
      let w1 := w.barrier env
      let r := w1.woooof env requestType element
      match r.2 with
      | none => (r.1.emit (.Ack tag true), none)
      | some err => (r.1, some err)
    else
      let w1 := { w with actions := w.actions.Add element }
      if w1.actions.Length ≥ w1.count then (w1.flush env, none) else (w1, none)

/-- What the `select` of `Dog.Start` receives: a tick of the ticker or a delivery. -/
inductive Incoming where
  | Tick
  | Delivery (tag : Nat) (body : String)
  deriving DecidableEq, Repr

/-- One iteration of the `for { select { ... } }` loop of `Dog.Start` (src/dog.go 49-67). -/
def Dog.step (env : Env) (w : Dog) : Incoming → Dog
  | .Tick => if w.actions.Length > 0 then w.flush env else w
  | .Delivery tag body =>
    let w0 := w.emit (.Recv tag body)
    if tag = 0 then w0.emit (.Nack tag false false)
    else (w0.woof env tag body).1

/-- The loop of `Dog.Start` run over a finite sequence of ticks and deliveries. -/
def Dog.Start (env : Env) (w : Dog) (incoming : List Incoming) : Dog :=
  incoming.foldl (Dog.step env) w

/-! ## Observations on traces -/

/-- The events recorded between the state `w` and a later state `w'`. -/
def emitted (w w' : Dog) : List Event := w'.trace.drop w.trace.length

/-- The event is a call of `w.ch.Ack`. -/
def Event.isAck : Event → Bool
  | .Ack _ _ => true
  | _ => false

/-- The event is a call of `w.ch.Nack`. -/
def Event.isNack : Event → Bool
  | .Nack _ _ _ => true
  | _ => false

/-- The elements handed to `w.bulk.Add`, in order. -/
def bulkAdds (evs : List Event) : List Element :=
  evs.filterMap fun ev => match ev with
    | .BulkAdd e => some e
    | _ => none

/-- The `BulkAdd` events of a list of elements. -/
def addEvents (es : List Element) : List Event := es.map Event.BulkAdd

/-- The `Ack(tag, true)` events of a list of elements, one per element. -/
def ackEvents (es : List Element) : List Event := es.map fun e => Event.Ack e.DeliveryTag true

/-- A sample environment: a body parses unless it is empty, and then names its own request
type; every service is built; the cluster answers are the two given oracles. -/
def sampleEnv (bulk : Nat → Option String) (srv : Nat → Option String) : Env :=
  { NewElement := fun tag body =>
      if body = "" then .error "unexpected end of JSON input" else .ok ⟨tag, body, body⟩
    UpdateByQueryService := fun _ => none
    DeleteByQueryService := fun _ => none
    IndicesCreateService := fun _ => none
    IndicesDeleteService := fun _ => none
    bulkFlush := bulk
    serviceDo := srv }

/-- The seconds slept, in order. -/
def sleeps (evs : List Event) : List Nat :=
  evs.filterMap fun ev => match ev with
    | .Sleep s => some s
    | _ => none

/-- The answers of the `service.Do` calls, in order. -/
def attempts (evs : List Event) : List (Option String) :=
  evs.filterMap fun ev => match ev with
    | .Do _ err => some err
    | _ => none

/-- The offset in seconds at which every `service.Do` call starts, counting the time slept
since the clock showed `t` (the duration of the calls themselves is not counted). -/
def attemptOffsetsFrom : Nat → List Event → List Nat
  | _, [] => []
  | t, .Do _ _ :: evs => t :: attemptOffsetsFrom t evs
  | t, .Sleep s :: evs => attemptOffsetsFrom (t + s) evs
  | t, _ :: evs => attemptOffsetsFrom t evs

/-- The offsets of the `service.Do` calls, the clock starting at 0. -/
def attemptOffsets (evs : List Event) : List Nat := attemptOffsetsFrom 0 evs

/-- The answer of an attempt is an error whose text contains "Error 409 (Conflict)". -/
def isConflict : Option String → Bool
  | some msg => strings_Contains msg "Error 409 (Conflict)"
  | none => false

/-- The events of a run of attempts over a schedule: attempt number i is one `Do` with the
answer `answers[i]`, followed by a sleep of `intervals[i]` exactly when that answer is a
conflict. -/
def attemptEvents (e : Element) : List Nat → List (Option String) → List Event
  | interval :: intervals, r :: answers =>
    (Event.Do e r :: if isConflict r then [Event.Sleep interval] else [])
      ++ attemptEvents e intervals answers
  | _, _ => []

/-- The first `k` answers of the `service.Do` oracle from call number `base` on. -/
def answersFrom (env : Env) (base k : Nat) : List (Option String) :=
  (List.range k).map fun i => env.serviceDo (base + i)

/-- An error of a direct dispatch that `Dog.woooof` turns into success: "already exists" on
an index creation, "[type=index_not_found_exception]" on an index deletion. -/
def benign (e : Element) (msg : String) : Bool :=
  (e.RequestType == "indices_create" && strings_Contains msg "already exists") ||
  (e.RequestType == "indices_delete" &&
    strings_Contains msg "[type=index_not_found_exception]")

/-- The answer of a `service.Do` call settles the element: the call succeeded, or failed
with an error that is benign for the element's request type. -/
def settles (e : Element) : Option String → Bool
  | none => true
  | some msg => benign e msg

/-- What the cluster has taken, read off a trace: the elements handed to the bulk processor
since its last `Flush`, the elements of the bulk flushes that returned no error, and the
elements of the direct dispatches that succeeded. -/
structure Ledger where
  pending : List Element
  flushed : List Element
  dispatched : List Element
  deriving DecidableEq, Repr

/-- The effect of one event on the ledger. -/
def Ledger.record (l : Ledger) : Event → Ledger
  | .BulkAdd e => { l with pending := l.pending ++ [e] }
  | .BulkFlush none => { l with pending := [], flushed := l.flushed ++ l.pending }
  | .BulkFlush (some _) => { l with pending := [] }
  | .Do e r => if settles e r then { l with dispatched := l.dispatched ++ [e] } else l
  | _ => l

/-- The ledger after a trace. -/
def ledger (evs : List Event) : Ledger := evs.foldl Ledger.record ⟨[], [], []⟩

/-- The delivery tags of the elements the cluster has accepted after a trace, in a
successful bulk flush or in a successful direct dispatch. -/
def acceptedTags (evs : List Event) : List Nat :=
  ((ledger evs).flushed ++ (ledger evs).dispatched).map (·.DeliveryTag)

/-- The effect of one event on the list of outstanding delivery tags: a reception adds its
tag; `Ack` and `Nack` remove the tag they name, and every tag up to it when `multiple`. -/
def outstandingStep (out : List Nat) : Event → List Nat
  | .Recv t _ => out ++ [t]
  | .Ack t multiple => out.filter fun u => if multiple then !decide (u ≤ t) else !decide (u = t)
  | .Nack t multiple _ =>
    out.filter fun u => if multiple then !decide (u ≤ t) else !decide (u = t)
  | _ => out

/-- The delivery tags received and neither acked nor nacked after a trace. -/
def outstanding (evs : List Event) : List Nat := evs.foldl outstandingStep []

/-- The tags covered by a call `Ack(t, multiple)` made after the trace `pre`: the tag it
names and, when `multiple`, every outstanding tag up to it. -/
def covered (pre : List Event) (t : Nat) (multiple : Bool) : List Nat :=
  t :: if multiple then (outstanding pre).filter (fun u => decide (u ≤ t)) else []

/-- The tag named by a call `Ack(t, multiple)`. -/
def named (_pre : List Event) (t : Nat) (_multiple : Bool) : List Nat := [t]

/-- No premature ack, for a given reading `covers` of what an `Ack` acknowledges: at every
`Ack` of the trace, every tag it acknowledges belongs to an element the cluster has
accepted in the part of the trace before that `Ack`. -/
def NoPrematureAck (covers : List Event → Nat → Bool → List Nat) (trace : List Event) :
    Prop :=
  ∀ pre t multiple post, trace = pre ++ Event.Ack t multiple :: post →
    ∀ u ∈ covers pre t multiple, u ∈ acceptedTags pre

/-- The `Ack`s of the events `new`, recorded after the trace `tr`, name accepted tags. -/
def AcksJustified (tr new : List Event) : Prop :=
  ∀ pre t multiple post, new = pre ++ Event.Ack t multiple :: post →
    t ∈ acceptedTags (tr ++ pre)

/-- The trace `tr'` continues `tr` by events whose `Ack`s name accepted tags. -/
def Continues (tr tr' : List Event) : Prop :=
  ∃ new, tr' = tr ++ new ∧ AcksJustified tr new

/-- A cluster that answers every `service.Do` with a server error. -/
def serverDown : Nat → Option String := fun _ =>
  some "elastic: Error 500 (Internal Server Error)"

/-- The run of a failed `update_by_query` (tag 1, five refused attempts) followed by a
bulkable delivery (tag 2) whose flush succeeds, up to the moment before the `Ack`. -/
def failedThenFlushed : List Event :=
  [Event.Recv 1 "update_by_query",
    Event.Do ⟨1, "update_by_query", "update_by_query"⟩
      (some "elastic: Error 500 (Internal Server Error)"),
    Event.Do ⟨1, "update_by_query", "update_by_query"⟩
      (some "elastic: Error 500 (Internal Server Error)"),
    Event.Do ⟨1, "update_by_query", "update_by_query"⟩
      (some "elastic: Error 500 (Internal Server Error)"),
    Event.Do ⟨1, "update_by_query", "update_by_query"⟩
      (some "elastic: Error 500 (Internal Server Error)"),
    Event.Do ⟨1, "update_by_query", "update_by_query"⟩
      (some "elastic: Error 500 (Internal Server Error)"),
    Event.Recv 2 "bulkable", Event.BulkAdd ⟨2, "bulkable", "bulkable"⟩,
    Event.BulkFlush none]

/-- A buffer of two bulkable elements with tags 30 and 31. -/
def sampleBuffer : Container :=
  ⟨[⟨30, "bulkable", "doc-30"⟩, ⟨31, "bulkable", "doc-31"⟩]⟩

/-- A `Dog` with batch size 10 that holds `sampleBuffer`. -/
def sampleDog : Dog := { NewDog 10 false with actions := sampleBuffer }

/-- The cluster of scenario S4: three conflicts, then success. -/
def conflictThrice : Nat → Option String := fun k =>
  if k < 3 then some "elastic: Error 409 (Conflict)" else none

/-- A cluster whose first `service.Do` fails with a server error and whose later calls
succeed. -/
def serverErrorOnce : Nat → Option String := fun k =>
  if k = 0 then some "elastic: Error 500 (Internal Server Error)" else none

/-- A cluster that answers every `service.Do` with an error that names
index_not_found_exception without the bracketed type marker. -/
def notFoundPlain : Nat → Option String := fun _ =>
  some "no such index: index_not_found_exception"

/-- A cluster that answers every `service.Do` with the error text of a missing index as the
client formats it. -/
def notFoundTyped : Nat → Option String := fun _ =>
  some "elastic: Error 404 (Not Found): no such index [type=index_not_found_exception]"

/-- The delivery `(tag, body)` as received by the `select` of `Dog.Start`. -/
def deliver (d : Nat × String) : Incoming := .Delivery d.1 d.2

/-- The event of taking the delivery `(tag, body)` from the channel. -/
def recvEvent (d : Nat × String) : Event := .Recv d.1 d.2

/-- The deliveries of scenario S1: three bulkable messages with tags 11, 12, 13. -/
def batchOfThree : List (Nat × String) := [(11, "bulkable"), (12, "bulkable"), (13, "bulkable")]

/-- The elements the sample parser builds from `batchOfThree`. -/
def batchOfThreeElements : List Element :=
  [⟨11, "bulkable", "bulkable"⟩, ⟨12, "bulkable", "bulkable"⟩, ⟨13, "bulkable", "bulkable"⟩]

/-- A cluster that refuses every bulk flush. -/
def bulkDown : Nat → Option String := fun _ => some "context deadline exceeded"

/-! ## Lemmas on `Dog.flush` -/

theorem emitted_append (w w' : Dog) (evs : List Event) (h : w'.trace = w.trace ++ evs) :
    emitted w w' = evs := by
  simp [emitted, h]

theorem flushCollect_eq (es : List Element) (w : Dog) (tags : List Nat) :
    es.foldl (fun acc element =>
        ((acc.1 ++ [element.DeliveryTag], acc.2.emit (.BulkAdd element)) : List Nat × Dog))
      (tags, w)
      = (tags ++ es.map (·.DeliveryTag), { w with trace := w.trace ++ addEvents es }) := by
  induction es generalizing w tags with
  | nil => simp [addEvents]
  | cons e es ih =>
    rw [List.foldl_cons, ih]
    simp [Dog.emit, addEvents]

theorem flushAcks_eq (tags : List Nat) (w : Dog) :
    flushAcks w tags = { w with trace := w.trace ++ tags.map fun t => Event.Ack t true } := by
  unfold flushAcks
  induction tags generalizing w with
  | nil => simp
  | cons t tags ih =>
    rw [List.foldl_cons, ih]
    simp [Dog.emit]

theorem flushCollect_spec (w : Dog) (es : List Element) :
    flushCollect w es
      = (es.map (·.DeliveryTag), { w with trace := w.trace ++ addEvents es }) := by
  unfold flushCollect
  rw [flushCollect_eq]
  simp

theorem flush_ok (env : Env) (w : Dog) (h : env.bulkFlush w.flushCalls = none) :
    w.flush env =
      { w with
        actions := ⟨[]⟩
        trace := w.trace ++ (addEvents w.actions.Elements ++ [Event.BulkFlush none]
          ++ ackEvents w.actions.Elements)
        flushCalls := w.flushCalls + 1 } := by
  unfold Dog.flush
  rw [flushCollect_spec]
  simp only [h, flushAcks_eq, Dog.emit, Container.Clear, ackEvents]
  simp

theorem flush_err (env : Env) (w : Dog) (msg : String)
    (h : env.bulkFlush w.flushCalls = some msg) :
    w.flush env =
      { w with
        trace := w.trace ++ (addEvents w.actions.Elements ++ [Event.BulkFlush (some msg)])
        flushCalls := w.flushCalls + 1 } := by
  unfold Dog.flush
  rw [flushCollect_spec]
  simp only [h, Dog.emit]
  simp

theorem bulkAdds_append (a b : List Event) : bulkAdds (a ++ b) = bulkAdds a ++ bulkAdds b := by
  simp [bulkAdds, List.filterMap_append]

theorem bulkAdds_addEvents (es : List Element) : bulkAdds (addEvents es) = es := by
  induction es with
  | nil => rfl
  | cons e es ih =>
    simp only [addEvents, List.map_cons, bulkAdds, List.filterMap_cons] at ih ⊢
    rw [ih]

theorem bulkAdds_ackEvents (es : List Element) : bulkAdds (ackEvents es) = [] := by
  induction es with
  | nil => rfl
  | cons e es ih =>
    simp only [ackEvents, List.map_cons, bulkAdds, List.filterMap_cons] at ih ⊢
    rw [ih]

theorem flush_adds (env : Env) (w : Dog) :
    bulkAdds (emitted w (w.flush env)) = w.actions.Elements := by
  cases h : env.bulkFlush w.flushCalls with
  | none =>
    rw [emitted_append w _ _ (by rw [flush_ok env w h])]
    simp only [bulkAdds_append, bulkAdds_addEvents, bulkAdds_ackEvents]
    simp [bulkAdds]
  | some msg =>
    rw [emitted_append w _ _ (by rw [flush_err env w msg h])]
    simp only [bulkAdds_append, bulkAdds_addEvents]
    simp [bulkAdds]

/-! ## C2, C3: the two outcomes of `Dog.flush` -/

/-- C2. When `bulk.Flush()` returns an error, `Dog.flush` records exactly the `bulk.Add` of
every buffered element followed by the failed `Flush`: no `Ack` and no `Nack` is sent; the
buffer is left as it was; and the flush that follows hands the same elements, in the same
order, to `bulk.Add` again. -/
theorem flush_failure_atomic (env : Env) (w : Dog) (msg : String)
    (h : env.bulkFlush w.flushCalls = some msg) :
    emitted w (w.flush env) = addEvents w.actions.Elements ++ [Event.BulkFlush (some msg)] ∧
    (∀ ev ∈ emitted w (w.flush env), ev.isAck = false ∧ ev.isNack = false) ∧
    (w.flush env).actions = w.actions ∧
    bulkAdds (emitted w (w.flush env)) = w.actions.Elements ∧
    bulkAdds (emitted (w.flush env) ((w.flush env).flush env)) = w.actions.Elements := by
  have hem : emitted w (w.flush env)
      = addEvents w.actions.Elements ++ [Event.BulkFlush (some msg)] :=
    emitted_append w _ _ (by rw [flush_err env w msg h])
  have hact : (w.flush env).actions = w.actions := by rw [flush_err env w msg h]
  refine ⟨hem, ?_, hact, flush_adds env w, ?_⟩
  · intro ev hev
    rw [hem] at hev
    rcases List.mem_append.1 hev with h1 | h1
    · obtain ⟨e, -, rfl⟩ := List.mem_map.1 h1
      exact ⟨rfl, rfl⟩
    · rw [List.mem_singleton] at h1
      subst h1
      exact ⟨rfl, rfl⟩
  · rw [flush_adds env (w.flush env), hact]

/-- Witness of C2: the sample buffer [30, 31] and a cluster that refuses every bulk flush. -/
theorem flush_failure_atomic_witness :
    (sampleEnv (fun _ => some "context deadline exceeded") (fun _ => none)).bulkFlush
        sampleDog.flushCalls = some "context deadline exceeded" ∧
    (sampleDog.flush (sampleEnv (fun _ => some "context deadline exceeded")
        (fun _ => none))).actions = sampleBuffer :=
  ⟨rfl, (flush_failure_atomic
    (sampleEnv (fun _ => some "context deadline exceeded") (fun _ => none))
    sampleDog "context deadline exceeded" rfl).2.2.1⟩

/-- C3. When `bulk.Flush()` returns no error, `Dog.flush` hands the buffered elements
e1..en to `bulk.Add` in insertion order, calls `Flush`, then sends exactly one `Ack` per
buffered element, in insertion order and with that element's delivery tag, and leaves the
buffer with length 0. -/
theorem flush_success_acks_and_clears (env : Env) (w : Dog)
    (h : env.bulkFlush w.flushCalls = none) :
    emitted w (w.flush env)
      = addEvents w.actions.Elements ++ [Event.BulkFlush none] ++ ackEvents w.actions.Elements ∧
    bulkAdds (emitted w (w.flush env)) = w.actions.Elements ∧
    (emitted w (w.flush env)).filter Event.isAck
      = w.actions.Elements.map (fun e => Event.Ack e.DeliveryTag true) ∧
    (w.flush env).actions.Length = 0 ∧
    (w.flush env).UnitWorks = 0 := by
  have hem : emitted w (w.flush env)
      = addEvents w.actions.Elements ++ [Event.BulkFlush none]
        ++ ackEvents w.actions.Elements :=
    emitted_append w _ _ (by rw [flush_ok env w h])
  have hlen : (w.flush env).actions.Length = 0 := by
    rw [flush_ok env w h]; rfl
  refine ⟨hem, flush_adds env w, ?_, hlen, hlen⟩
  rw [hem]
  simp only [List.filter_append, addEvents, ackEvents, List.filter_map]
  have h1 : List.filter (Event.isAck ∘ Event.BulkAdd) w.actions.Elements = [] :=
    List.filter_eq_nil_iff.2 (fun a _ => by simp [Event.isAck])
  have h2 : List.filter (Event.isAck ∘ fun e : Element => Event.Ack e.DeliveryTag true)
      w.actions.Elements = w.actions.Elements :=
    List.filter_eq_self.2 (fun a _ => by simp [Event.isAck])
  rw [h1, h2]
  simp [Event.isAck]

/-- Witness of C3: the sample buffer [30, 31] and a cluster that accepts every bulk flush. -/
theorem flush_success_acks_and_clears_witness :
    (sampleEnv (fun _ => none) (fun _ => none)).bulkFlush sampleDog.flushCalls = none ∧
    emitted sampleDog (sampleDog.flush (sampleEnv (fun _ => none) (fun _ => none)))
      = addEvents sampleBuffer.Elements ++ [Event.BulkFlush none]
        ++ ackEvents sampleBuffer.Elements :=
  ⟨rfl, (flush_success_acks_and_clears (sampleEnv (fun _ => none) (fun _ => none))
    sampleDog rfl).1⟩

/-! ## Lemmas on the retry loop of `Dog.woooof` -/

theorem answersFrom_succ (env : Env) (base k : Nat) :
    answersFrom env base (k + 1) = env.serviceDo base :: answersFrom env (base + 1) k := by
  simp only [answersFrom, List.range_succ_eq_map, List.map_cons, List.map_map, Nat.add_zero]
  congr 1
  apply List.map_congr_left
  intro i _
  simp only [Function.comp_apply]
  congr 1
  omega

theorem retryLoop_cons_some (env : Env) (e : Element) (iv : Nat) (rest : List Nat) (w : Dog)
    (err : Option String) (msg : String) (h0 : env.serviceDo w.doCalls = some msg) :
    retryLoop env e (iv :: rest) w err
      = retryLoop env e rest
          { w with
            doCalls := w.doCalls + 1
            trace := w.trace ++ (Event.Do e (some msg) ::
              if isConflict (some msg) then [Event.Sleep iv] else []) }
          (some msg) := by
  by_cases hc : strings_Contains msg "Error 409 (Conflict)" = true
  · simp [retryLoop, h0, hc, isConflict, Dog.emit]
  · simp [retryLoop, h0, hc, isConflict, Dog.emit]

theorem retryLoop_spec (env : Env) (e : Element) :
    ∀ (intervals : List Nat) (w : Dog) (err : Option String),
      ∃ k, k ≤ intervals.length ∧ (intervals ≠ [] → 1 ≤ k) ∧
        (∀ i, i + 1 < k → env.serviceDo (w.doCalls + i) ≠ none) ∧
        (k < intervals.length → env.serviceDo (w.doCalls + (k - 1)) = none) ∧
        (retryLoop env e intervals w err).2
          = (if k = 0 then err else env.serviceDo (w.doCalls + (k - 1))) ∧
        (retryLoop env e intervals w err).1
          = { w with
              doCalls := w.doCalls + k
              trace := w.trace ++ attemptEvents e intervals (answersFrom env w.doCalls k) } := by
  intro intervals
  induction intervals with
  | nil =>
    intro w err
    exact ⟨0, by simp, by simp, by simp, by simp, by simp [retryLoop],
      by simp [retryLoop, attemptEvents, answersFrom]⟩
  | cons iv rest ih =>
    intro w err
    cases h0 : env.serviceDo w.doCalls with
    | none =>
      refine ⟨1, by simp, by simp, by simp, by simp [h0], by simp [retryLoop, h0], ?_⟩
      simp [retryLoop, h0, answersFrom, attemptEvents, isConflict, Dog.emit]
    | some msg =>
      rw [retryLoop_cons_some env e iv rest w err msg h0]
      obtain ⟨k, hk1, hk2, hk3, hk4, hk5, hk6⟩ :=
        ih { w with
             doCalls := w.doCalls + 1
             trace := w.trace ++ (Event.Do e (some msg) ::
               if isConflict (some msg) then [Event.Sleep iv] else []) }
          (some msg)
      simp only at hk3 hk4 hk5 hk6
      refine ⟨k + 1, by simp; omega, by simp, ?_, ?_, ?_, ?_⟩
      · intro i hi
        cases i with
        | zero => simp [h0]
        | succ j =>
          have := hk3 j (by omega)
          rwa [show w.doCalls + (j + 1) = w.doCalls + 1 + j by omega]
      · intro hlt
        simp only [List.length_cons] at hlt
        cases k with
        | zero =>
          have hne : rest ≠ [] := by
            intro hnil
            simp [hnil] at hlt
          have := hk2 hne
          omega
        | succ j =>
          have := hk4 (by omega)
          simpa [show w.doCalls + 1 + j = w.doCalls + (j + 1) by omega] using this
      · rw [hk5]
        cases k with
        | zero => simp [h0]
        | succ j =>
          simp [show w.doCalls + 1 + j = w.doCalls + (j + 1) by omega]
      · rw [hk6, answersFrom_succ, h0]
        simp [attemptEvents, Nat.add_assoc, Nat.add_comm 1 k]

theorem woooof_by_query (env : Env) (w : Dog) (e : Element)
    (hkind : (e.RequestType = "update_by_query" ∧ env.UpdateByQueryService e = none) ∨
      (e.RequestType = "delete_by_query" ∧ env.DeleteByQueryService e = none)) :
    w.woooof env e.RequestType e = retryLoop env e conflictRetryIntervals w none := by
  rcases hkind with ⟨h1, h2⟩ | ⟨h1, h2⟩
  · simp [Dog.woooof, h1, h2]
  · simp [Dog.woooof, h1, h2]

theorem flush_doCalls (env : Env) (w : Dog) : (w.flush env).doCalls = w.doCalls := by
  cases h : env.bulkFlush w.flushCalls with
  | none => rw [flush_ok env w h]
  | some msg => rw [flush_err env w msg h]

theorem barrier_doCalls (env : Env) (w : Dog) : (w.barrier env).doCalls = w.doCalls := by
  unfold Dog.barrier
  split
  · simp [Dog.emit, flush_doCalls]
  · rfl

theorem barrier_empty (env : Env) (w : Dog) (h : w.actions.Elements = []) :
    w.barrier env = w := by
  simp [Dog.barrier, Container.Length, Container.Elements] at h ⊢
  simp [h]

theorem woof_direct (env : Env) (w : Dog) (tag : Nat) (body : String) (e : Element)
    (hparse : env.NewElement tag body = .ok e) (hkind : e.RequestType ≠ "bulkable") :
    w.woof env tag body =
      match ((w.barrier env).woooof env e.RequestType e).2 with
      | none => (((w.barrier env).woooof env e.RequestType e).1.emit (.Ack tag true), none)
      | some err => (((w.barrier env).woooof env e.RequestType e).1, some err) := by
  have hk : ¬ ("bulkable" = e.RequestType) := fun h => hkind h.symm
  simp [Dog.woof, hparse, hk]

/-! ## C7: three conflicts, then success -/

theorem retryLoop_three_conflicts (env : Env) (w : Dog) (e : Element) (m0 m1 m2 : String)
    (h0 : env.serviceDo w.doCalls = some m0)
    (c0 : strings_Contains m0 "Error 409 (Conflict)" = true)
    (h1 : env.serviceDo (w.doCalls + 1) = some m1)
    (c1 : strings_Contains m1 "Error 409 (Conflict)" = true)
    (h2 : env.serviceDo (w.doCalls + 2) = some m2)
    (c2 : strings_Contains m2 "Error 409 (Conflict)" = true)
    (h3 : env.serviceDo (w.doCalls + 3) = none) :
    retryLoop env e conflictRetryIntervals w none =
      ({ w with
          doCalls := w.doCalls + 4
          trace := w.trace ++ [Event.Do e (some m0), Event.Sleep 1, Event.Do e (some m1),
            Event.Sleep 2, Event.Do e (some m2), Event.Sleep 3, Event.Do e none] }, none) := by
  simp [conflictRetryIntervals, retryLoop, Dog.emit, h0, c0, h1, c1, h2, c2, h3]

/-- C7. An `update_by_query` or `delete_by_query` delivery handled by `Dog.woof` with an
empty buffer, whose first three attempts are answered with an error containing
"Error 409 (Conflict)" and whose fourth attempt succeeds: the operation is executed exactly
four times, the waits between the attempts are 1 s, 2 s and 3 s in that order (attempts at
the offsets 0 s, 1 s, 3 s, 6 s), `Dog.woooof` returns no error and the tag is acked. -/
theorem conflict_retry (env : Env) (w : Dog) (tag : Nat) (body : String) (e : Element)
    (m0 m1 m2 : String)
    (hparse : env.NewElement tag body = .ok e)
    (hkind : (e.RequestType = "update_by_query" ∧ env.UpdateByQueryService e = none) ∨
      (e.RequestType = "delete_by_query" ∧ env.DeleteByQueryService e = none))
    (hempty : w.actions.Elements = [])
    (h0 : env.serviceDo w.doCalls = some m0)
    (c0 : strings_Contains m0 "Error 409 (Conflict)" = true)
    (h1 : env.serviceDo (w.doCalls + 1) = some m1)
    (c1 : strings_Contains m1 "Error 409 (Conflict)" = true)
    (h2 : env.serviceDo (w.doCalls + 2) = some m2)
    (c2 : strings_Contains m2 "Error 409 (Conflict)" = true)
    (h3 : env.serviceDo (w.doCalls + 3) = none) :
    (w.woooof env e.RequestType e).2 = none ∧
    (w.woooof env e.RequestType e).1.doCalls = w.doCalls + 4 ∧
    emitted w (w.woooof env e.RequestType e).1
      = [Event.Do e (some m0), Event.Sleep 1, Event.Do e (some m1), Event.Sleep 2,
          Event.Do e (some m2), Event.Sleep 3, Event.Do e none] ∧
    attempts (emitted w (w.woof env tag body).1) = [some m0, some m1, some m2, none] ∧
    sleeps (emitted w (w.woof env tag body).1) = [1, 2, 3] ∧
    attemptOffsets (emitted w (w.woof env tag body).1) = [0, 1, 3, 6] ∧
    (w.woof env tag body).2 = none ∧
    emitted w (w.woof env tag body).1
      = [Event.Do e (some m0), Event.Sleep 1, Event.Do e (some m1), Event.Sleep 2,
          Event.Do e (some m2), Event.Sleep 3, Event.Do e none, Event.Ack tag true] := by
  have hloop := retryLoop_three_conflicts env w e m0 m1 m2 h0 c0 h1 c1 h2 c2 h3
  have hw : w.woooof env e.RequestType e = _ := (woooof_by_query env w e hkind).trans hloop
  have hnb : e.RequestType ≠ "bulkable" := by
    rcases hkind with ⟨h, -⟩ | ⟨h, -⟩ <;> rw [h] <;> decide
  have hwoof := woof_direct env w tag body e hparse hnb
  rw [barrier_empty env w hempty, hw] at hwoof
  simp only [Dog.emit] at hwoof
  have hem : emitted w (w.woof env tag body).1
      = [Event.Do e (some m0), Event.Sleep 1, Event.Do e (some m1), Event.Sleep 2,
          Event.Do e (some m2), Event.Sleep 3, Event.Do e none, Event.Ack tag true] :=
    emitted_append w _ _ (by rw [hwoof]; simp)
  refine ⟨by rw [hw], by rw [hw], emitted_append w _ _ (by rw [hw]), ?_, ?_, ?_,
    by rw [hwoof], hem⟩
  · rw [hem]; rfl
  · rw [hem]; rfl
  · rw [hem]; rfl

/-- Witness of C7: `update_by_query` with tag 40, answered by three conflicts and a
success. -/
theorem conflict_retry_witness :
    (sampleEnv (fun _ => none) conflictThrice).NewElement 40 "update_by_query"
      = .ok ⟨40, "update_by_query", "update_by_query"⟩ ∧
    attemptOffsets (emitted (NewDog 3 false)
      ((NewDog 3 false).woof (sampleEnv (fun _ => none) conflictThrice) 40
        "update_by_query").1) = [0, 1, 3, 6] ∧
    ((NewDog 3 false).woof (sampleEnv (fun _ => none) conflictThrice) 40
        "update_by_query").2 = none ∧
    emitted (NewDog 3 false)
      ((NewDog 3 false).woof (sampleEnv (fun _ => none) conflictThrice) 40
        "update_by_query").1
      = [Event.Do ⟨40, "update_by_query", "update_by_query"⟩
            (some "elastic: Error 409 (Conflict)"), Event.Sleep 1,
          Event.Do ⟨40, "update_by_query", "update_by_query"⟩
            (some "elastic: Error 409 (Conflict)"), Event.Sleep 2,
          Event.Do ⟨40, "update_by_query", "update_by_query"⟩
            (some "elastic: Error 409 (Conflict)"), Event.Sleep 3,
          Event.Do ⟨40, "update_by_query", "update_by_query"⟩ none, Event.Ack 40 true] :=
  ⟨rfl,
    (conflict_retry (sampleEnv (fun _ => none) conflictThrice) (NewDog 3 false) 40
      "update_by_query" ⟨40, "update_by_query", "update_by_query"⟩
      "elastic: Error 409 (Conflict)" "elastic: Error 409 (Conflict)"
      "elastic: Error 409 (Conflict)" rfl (Or.inl ⟨rfl, rfl⟩) rfl rfl (by decide) rfl
      (by decide) rfl (by decide) rfl).2.2.2.2.2⟩

/-! ## C8: errors that are not conflicts -/

theorem woof_ack_iff (env : Env) (w : Dog) (tag : Nat) (body : String) (e : Element)
    (hparse : env.NewElement tag body = .ok e) (hkind : e.RequestType ≠ "bulkable") :
    (w.woof env tag body).2 = ((w.barrier env).woooof env e.RequestType e).2 ∧
    (w.woof env tag body).1.trace
      = ((w.barrier env).woooof env e.RequestType e).1.trace
        ++ (if ((w.barrier env).woooof env e.RequestType e).2.isNone
            then [Event.Ack tag true] else []) := by
  rw [woof_direct env w tag body e hparse hkind]
  cases h : ((w.barrier env).woooof env e.RequestType e).2 with
  | none => simp [Dog.emit]
  | some err => simp

/-- Counterexample to C8 as stated: the first attempt of an `update_by_query` (tag 50)
fails with an error that is not a conflict, and still a second attempt is made at once,
`Dog.woooof` returns no error and the delivery is acked. -/
theorem non_conflict_error_is_retried :
    strings_Contains "elastic: Error 500 (Internal Server Error)" "409 (Conflict)" = false ∧
    ((NewDog 3 false).woooof (sampleEnv (fun _ => none) serverErrorOnce) "update_by_query"
        ⟨50, "update_by_query", "update_by_query"⟩).2 = none ∧
    ((NewDog 3 false).woof (sampleEnv (fun _ => none) serverErrorOnce) 50
        "update_by_query").1.trace
      = [Event.Do ⟨50, "update_by_query", "update_by_query"⟩
            (some "elastic: Error 500 (Internal Server Error)"),
          Event.Do ⟨50, "update_by_query", "update_by_query"⟩ none,
          Event.Ack 50 true] := by
  decide

/-- C8, amended. For an `update_by_query` or `delete_by_query` whose service is built,
`Dog.woooof` started in any state `v` makes k attempts with 1 ≤ k ≤ 5: every attempt before
the last failed, the loop stops before the fifth attempt only on a success, so an attempt
that fails (conflict or not) is followed by a further attempt unless it was the fifth; after
a failed attempt the loop sleeps that attempt's interval exactly when the error is a
conflict (no wait after any other error); `Dog.woooof` returns the answer of the last
attempt. `Dog.woof` returns what `Dog.woooof` returned and sends `Ack(tag, true)` exactly
when that is no error. -/
theorem by_query_retry_schedule (env : Env) (v w : Dog) (tag : Nat) (body : String)
    (e : Element)
    (hparse : env.NewElement tag body = .ok e)
    (hkind : (e.RequestType = "update_by_query" ∧ env.UpdateByQueryService e = none) ∨
      (e.RequestType = "delete_by_query" ∧ env.DeleteByQueryService e = none)) :
    (∃ k, 1 ≤ k ∧ k ≤ 5 ∧
      (∀ i, i + 1 < k → env.serviceDo (v.doCalls + i) ≠ none) ∧
      (k < 5 → env.serviceDo (v.doCalls + (k - 1)) = none) ∧
      (∀ i msg, i < k → env.serviceDo (v.doCalls + i) = some msg → i + 1 < 5 → i + 1 < k) ∧
      (v.woooof env e.RequestType e).2 = env.serviceDo (v.doCalls + (k - 1)) ∧
      (v.woooof env e.RequestType e).1.doCalls = v.doCalls + k ∧
      emitted v (v.woooof env e.RequestType e).1
        = attemptEvents e conflictRetryIntervals (answersFrom env v.doCalls k)) ∧
    (w.woof env tag body).2 = ((w.barrier env).woooof env e.RequestType e).2 ∧
    (w.woof env tag body).1.trace
      = ((w.barrier env).woooof env e.RequestType e).1.trace
        ++ (if ((w.barrier env).woooof env e.RequestType e).2.isNone
            then [Event.Ack tag true] else []) := by
  have hnb : e.RequestType ≠ "bulkable" := by
    rcases hkind with ⟨h, -⟩ | ⟨h, -⟩ <;> rw [h] <;> decide
  refine ⟨?_, woof_ack_iff env w tag body e hparse hnb⟩
  obtain ⟨k, hk1, hk2, hk3, hk4, hk5, hk6⟩ :=
    retryLoop_spec env e conflictRetryIntervals v none
  have hk2 : 1 ≤ k := hk2 (by simp [conflictRetryIntervals])
  have hlen : conflictRetryIntervals.length = 5 := rfl
  rw [hlen] at hk1 hk4
  rw [woooof_by_query env v e hkind]
  refine ⟨k, hk2, hk1, hk3, hk4, ?_, ?_, by rw [hk6], emitted_append v _ _ (by rw [hk6])⟩
  · intro i msg hi hresp hfive
    by_contra hnot
    have hik : i = k - 1 := by omega
    have := hk4 (by omega)
    rw [← hik, hresp] at this
    exact absurd this (by simp)
  · rw [hk5]
    have : k ≠ 0 := by omega
    simp [this]

/-- Witness of C8 amended: `update_by_query` with tag 50 on a cluster whose first answer is
a server error. -/
theorem by_query_retry_schedule_witness :
    (sampleEnv (fun _ => none) serverErrorOnce).NewElement 50 "update_by_query"
      = .ok ⟨50, "update_by_query", "update_by_query"⟩ ∧
    ((NewDog 3 false).woof (sampleEnv (fun _ => none) serverErrorOnce) 50
        "update_by_query").2
      = (((NewDog 3 false).barrier (sampleEnv (fun _ => none) serverErrorOnce)).woooof
          (sampleEnv (fun _ => none) serverErrorOnce) "update_by_query"
          ⟨50, "update_by_query", "update_by_query"⟩).2 :=
  ⟨rfl, (by_query_retry_schedule (sampleEnv (fun _ => none) serverErrorOnce)
    (NewDog 3 false) (NewDog 3 false) 50 "update_by_query"
    ⟨50, "update_by_query", "update_by_query"⟩ rfl (Or.inl ⟨rfl, rfl⟩)).2.1⟩

/-! ## C10: deleting an index that does not exist -/

theorem woooof_delete (env : Env) (v : Dog) (rt : String) (e : Element)
    (hkind : rt = "indices_delete") (hsrv : env.IndicesDeleteService e = none) :
    v.woooof env rt e =
      ({ v with
          doCalls := v.doCalls + 1
          trace := v.trace ++ [Event.Do e (env.serviceDo v.doCalls)] },
        match env.serviceDo v.doCalls with
        | some msg =>
          if strings_Contains msg "[type=index_not_found_exception]" then none else some msg
        | none => none) := by
  cases h : env.serviceDo v.doCalls with
  | none => simp [Dog.woooof, hkind, hsrv, doOnce, h, Dog.emit]
  | some msg =>
    by_cases hc : strings_Contains msg "[type=index_not_found_exception]" = true
    · simp [Dog.woooof, hkind, hsrv, doOnce, h, Dog.emit, hc]
    · simp [Dog.woooof, hkind, hsrv, doOnce, h, Dog.emit, hc]

theorem woooof_create (env : Env) (v : Dog) (rt : String) (e : Element)
    (hkind : rt = "indices_create") (hsrv : env.IndicesCreateService e = none) :
    v.woooof env rt e =
      ({ v with
          doCalls := v.doCalls + 1
          trace := v.trace ++ [Event.Do e (env.serviceDo v.doCalls)] },
        match env.serviceDo v.doCalls with
        | some msg => if strings_Contains msg "already exists" then none else some msg
        | none => none) := by
  cases h : env.serviceDo v.doCalls with
  | none => simp [Dog.woooof, hkind, hsrv, doOnce, h, Dog.emit]
  | some msg =>
    by_cases hc : strings_Contains msg "already exists" = true
    · simp [Dog.woooof, hkind, hsrv, doOnce, h, Dog.emit, hc]
    · simp [Dog.woooof, hkind, hsrv, doOnce, h, Dog.emit, hc]

theorem woooof_indices_delete (env : Env) (v : Dog) (e : Element)
    (hkind : e.RequestType = "indices_delete") (hsrv : env.IndicesDeleteService e = none) :
    v.woooof env e.RequestType e =
      ({ v with
          doCalls := v.doCalls + 1
          trace := v.trace ++ [Event.Do e (env.serviceDo v.doCalls)] },
        match env.serviceDo v.doCalls with
        | some msg =>
          if strings_Contains msg "[type=index_not_found_exception]" then none else some msg
        | none => none) :=
  woooof_delete env v e.RequestType e hkind hsrv

/-- Counterexample to C10 as stated: an `indices_delete` (tag 60) fails with an error whose
text contains "index_not_found_exception"; `Dog.woooof` returns that error and `Dog.woof`
sends no `Ack`. -/
theorem index_not_found_text_is_not_benign :
    strings_Contains "no such index: index_not_found_exception" "index_not_found_exception"
      = true ∧
    ((NewDog 3 false).woooof (sampleEnv (fun _ => none) notFoundPlain) "indices_delete"
        ⟨60, "indices_delete", "indices_delete"⟩).2
      = some "no such index: index_not_found_exception" ∧
    ((NewDog 3 false).woof (sampleEnv (fun _ => none) notFoundPlain) 60
        "indices_delete").1.trace
      = [Event.Do ⟨60, "indices_delete", "indices_delete"⟩
          (some "no such index: index_not_found_exception")] := by
  decide

/-- C10, amended. An `indices_delete` whose service is built is executed exactly once by
`Dog.woooof` (from any state `v`), and when that execution fails with an error whose text
contains "[type=index_not_found_exception]" the error is treated as success: `Dog.woooof`
returns no error and `Dog.woof` sends `Ack(tag, true)` right after the call. -/
theorem indices_delete_benign (env : Env) (v w : Dog) (tag : Nat) (body : String)
    (e : Element) (msg : String)
    (hparse : env.NewElement tag body = .ok e)
    (hkind : e.RequestType = "indices_delete")
    (hsrv : env.IndicesDeleteService e = none)
    (hresp : env.serviceDo w.doCalls = some msg)
    (hbenign : strings_Contains msg "[type=index_not_found_exception]" = true) :
    emitted v (v.woooof env e.RequestType e).1 = [Event.Do e (env.serviceDo v.doCalls)] ∧
    (v.woooof env e.RequestType e).1.doCalls = v.doCalls + 1 ∧
    (w.woooof env e.RequestType e).2 = none ∧
    ((w.barrier env).woooof env e.RequestType e).2 = none ∧
    (w.woof env tag body).2 = none ∧
    emitted (w.barrier env) (w.woof env tag body).1
      = [Event.Do e (some msg), Event.Ack tag true] := by
  have hnb : e.RequestType ≠ "bulkable" := by rw [hkind]; decide
  have hv := woooof_indices_delete env v e hkind hsrv
  have hw := woooof_indices_delete env w e hkind hsrv
  have hb := woooof_indices_delete env (w.barrier env) e hkind hsrv
  rw [barrier_doCalls, hresp] at hb
  rw [hresp] at hw
  simp only [hbenign, if_true] at hb hw
  obtain ⟨h1, h2⟩ := woof_ack_iff env w tag body e hparse hnb
  refine ⟨emitted_append v _ _ (by rw [hv]), by rw [hv], by rw [hw], by rw [hb],
    by rw [h1, hb], emitted_append _ _ _ ?_⟩
  rw [h2, hb]
  simp

/-- Witness of C10 amended: `indices_delete` with tag 60 on a cluster that answers with the
typed not-found error. -/
theorem indices_delete_benign_witness :
    (sampleEnv (fun _ => none) notFoundTyped).NewElement 60 "indices_delete"
      = .ok ⟨60, "indices_delete", "indices_delete"⟩ ∧
    strings_Contains
      "elastic: Error 404 (Not Found): no such index [type=index_not_found_exception]"
      "[type=index_not_found_exception]" = true ∧
    ((NewDog 3 false).woof (sampleEnv (fun _ => none) notFoundTyped) 60
        "indices_delete").2 = none ∧
    emitted ((NewDog 3 false).barrier (sampleEnv (fun _ => none) notFoundTyped))
      ((NewDog 3 false).woof (sampleEnv (fun _ => none) notFoundTyped) 60
        "indices_delete").1
      = [Event.Do ⟨60, "indices_delete", "indices_delete"⟩
          (some "elastic: Error 404 (Not Found): no such index [type=index_not_found_exception]"),
        Event.Ack 60 true] :=
  ⟨rfl, by decide,
    (indices_delete_benign (sampleEnv (fun _ => none) notFoundTyped) (NewDog 3 false)
      (NewDog 3 false) 60 "indices_delete" ⟨60, "indices_delete", "indices_delete"⟩
      "elastic: Error 404 (Not Found): no such index [type=index_not_found_exception]"
      rfl rfl rfl rfl (by decide)).2.2.2.2⟩

/-! ## C9: deliveries that cannot be handled -/

/-- C9, the code at the failing input. A delivery with tag 7 whose body does not parse is
taken from the channel and nothing else happens: no `Nack` (and no `Ack`) is sent and the
buffer is unchanged; the sibling case, tag 0, is answered with `Nack(0, false, false)`. -/
theorem unparsable_delivery_is_not_nacked :
    (sampleEnv (fun _ => none) (fun _ => none)).NewElement 7 ""
      = .error "unexpected end of JSON input" ∧
    ((NewDog 3 false).step (sampleEnv (fun _ => none) (fun _ => none))
      (.Delivery 7 "")).trace = [Event.Recv 7 ""] ∧
    ((NewDog 3 false).step (sampleEnv (fun _ => none) (fun _ => none))
      (.Delivery 7 "")).actions = (NewDog 3 false).actions ∧
    ((NewDog 3 false).step (sampleEnv (fun _ => none) (fun _ => none))
      (.Delivery 0 "bulkable")).trace
      = [Event.Recv 0 "bulkable", Event.Nack 0 false false] :=
  ⟨rfl, by decide, by decide, by decide⟩

/-! ## C5: the batch-size trigger -/

theorem flush_eq (env : Env) (w : Dog) :
    w.flush env =
      { w with
        actions := if (env.bulkFlush w.flushCalls).isNone then ⟨[]⟩ else w.actions
        trace := w.trace ++ (addEvents w.actions.Elements
          ++ [Event.BulkFlush (env.bulkFlush w.flushCalls)]
          ++ (if (env.bulkFlush w.flushCalls).isNone then ackEvents w.actions.Elements
              else []))
        flushCalls := w.flushCalls + 1 } := by
  cases h : env.bulkFlush w.flushCalls with
  | none => rw [flush_ok env w h]; simp
  | some msg => rw [flush_err env w msg h]; simp

theorem step_bulkable (env : Env) (w : Dog) (tag : Nat) (body : String) (e : Element)
    (htag : tag ≠ 0) (hparse : env.NewElement tag body = .ok e)
    (hkind : e.RequestType = "bulkable") :
    w.step env (.Delivery tag body) =
      if (w.actions.elements.length : Int) + 1 ≥ w.count then
        Dog.flush env { w with
          actions := ⟨w.actions.elements ++ [e]⟩
          trace := w.trace ++ [Event.Recv tag body] }
      else
        { w with
          actions := ⟨w.actions.elements ++ [e]⟩
          trace := w.trace ++ [Event.Recv tag body] } := by
  simp only [Dog.step, htag, if_false, Dog.woof, Dog.emit, hparse, hkind, Container.Add,
    Container.Length, List.length_append, List.length_singleton, Nat.cast_add, Nat.cast_one]
  simp only [ne_eq, not_true_eq_false, if_false]
  split <;> rfl

theorem start_below_batch (env : Env) :
    ∀ (ds : List (Nat × String)) (es : List Element) (w : Dog),
      ds.map (fun d => env.NewElement d.1 d.2) = es.map Except.ok →
      (∀ e ∈ es, e.RequestType = "bulkable") →
      (∀ d ∈ ds, d.1 ≠ 0) →
      (w.actions.elements.length : Int) + ds.length < w.count →
      w.Start env (ds.map deliver) =
        { w with
          actions := ⟨w.actions.elements ++ es⟩
          trace := w.trace ++ ds.map recvEvent } := by
  intro ds
  induction ds with
  | nil =>
    intro es w hmap _ _ _
    cases es with
    | nil => simp [Dog.Start]
    | cons e es => simp at hmap
  | cons d ds ih =>
    intro es w hmap hk ht hlen
    cases es with
    | nil => simp at hmap
    | cons e es =>
      simp only [List.map_cons, List.cons.injEq] at hmap
      obtain ⟨hd, hmap⟩ := hmap
      simp only [List.length_cons, Nat.cast_add, Nat.cast_one] at hlen
      have hstep := step_bulkable env w d.1 d.2 e (ht d (by simp)) hd (hk e (by simp))
      rw [if_neg (by omega)] at hstep
      simp only [Dog.Start, List.map_cons, List.foldl_cons, deliver] at ih ⊢
      rw [hstep, ih es _ hmap (fun e he => hk e (by simp [he]))
        (fun d hd => ht d (by simp [hd]))
        (by simp only [List.length_append, List.length_singleton, Nat.cast_add,
              Nat.cast_one]; omega)]
      simp [recvEvent]

theorem start_fills_batch (env : Env) :
    ∀ (ds : List (Nat × String)) (es : List Element) (w : Dog),
      ds ≠ [] →
      ds.map (fun d => env.NewElement d.1 d.2) = es.map Except.ok →
      (∀ e ∈ es, e.RequestType = "bulkable") →
      (∀ d ∈ ds, d.1 ≠ 0) →
      (w.actions.elements.length : Int) + ds.length = w.count →
      w.Start env (ds.map deliver) =
        Dog.flush env { w with
          actions := ⟨w.actions.elements ++ es⟩
          trace := w.trace ++ ds.map recvEvent } := by
  intro ds
  induction ds with
  | nil => intro es w hne; exact absurd rfl hne
  | cons d ds ih =>
    intro es w _ hmap hk ht hlen
    cases es with
    | nil => simp at hmap
    | cons e es =>
      simp only [List.map_cons, List.cons.injEq] at hmap
      obtain ⟨hd, hmap⟩ := hmap
      simp only [List.length_cons, Nat.cast_add, Nat.cast_one] at hlen
      have hstep := step_bulkable env w d.1 d.2 e (ht d (by simp)) hd (hk e (by simp))
      cases ds with
      | nil =>
        cases es with
        | cons e2 es => simp at hmap
        | nil =>
          simp only [List.length_nil, Nat.cast_zero] at hlen
          rw [if_pos (by omega)] at hstep
          simp only [Dog.Start, List.map_cons, List.map_nil, List.foldl_cons, List.foldl_nil,
            deliver]
          rw [hstep]
          simp [recvEvent]
      | cons d2 ds =>
        simp only [List.length_cons, Nat.cast_add, Nat.cast_one] at hlen
        rw [if_neg (by omega)] at hstep
        have := ih es { w with
            actions := ⟨w.actions.elements ++ [e]⟩
            trace := w.trace ++ [Event.Recv d.1 d.2] }
          (by simp) hmap (fun e he => hk e (by simp [he]))
          (fun d hd => ht d (by simp [hd]))
          (by simp; omega)
        simp only [Dog.Start, List.map_cons, List.foldl_cons, deliver] at this ⊢
        rw [hstep, this]
        simp [recvEvent]

theorem bulkAdds_recvEvents (ds : List (Nat × String)) : bulkAdds (ds.map recvEvent) = [] := by
  induction ds with
  | nil => rfl
  | cons d ds ih =>
    simp only [List.map_cons, bulkAdds, List.filterMap_cons, recvEvent] at ih ⊢
    rw [ih]

/-- C5. With batch size n ≥ 1 and an empty buffer, n deliveries with non-zero tags that
all parse as bulkable, handled back to back by the loop: while the first k < n of them are
handled nothing but the receptions is recorded (no `bulk.Add`, no `Flush`, the flush
counter is unchanged) and the buffer holds the first k elements; after the n-th exactly one
flush has been issued, and it handed exactly the n elements, in delivery order, to the bulk
processor (followed by their acks when the flush succeeds). -/
theorem batch_size_trigger (env : Env) (w : Dog) (ds : List (Nat × String))
    (es : List Element)
    (hn : 1 ≤ ds.length) (hcount : w.count = ds.length)
    (hempty : w.actions.Elements = [])
    (htags : ∀ d ∈ ds, d.1 ≠ 0)
    (hparse : ds.map (fun d => env.NewElement d.1 d.2) = es.map Except.ok)
    (hbulk : ∀ e ∈ es, e.RequestType = "bulkable") :
    (∀ k, k < ds.length →
      (w.Start env ((ds.take k).map deliver)).flushCalls = w.flushCalls ∧
      emitted w (w.Start env ((ds.take k).map deliver)) = (ds.take k).map recvEvent ∧
      (w.Start env ((ds.take k).map deliver)).actions.Elements = es.take k) ∧
    (w.Start env (ds.map deliver)).flushCalls = w.flushCalls + 1 ∧
    emitted w (w.Start env (ds.map deliver))
      = ds.map recvEvent ++ addEvents es ++ [Event.BulkFlush (env.bulkFlush w.flushCalls)]
        ++ (if (env.bulkFlush w.flushCalls).isNone then ackEvents es else []) ∧
    bulkAdds (emitted w (w.Start env (ds.map deliver))) = es := by
  have hel : w.actions.elements = [] := hempty
  have hfull := start_fills_batch env ds es w (by intro h; simp [h] at hn) hparse hbulk htags
    (by simp [hel, hcount])
  rw [flush_eq] at hfull
  simp only [hel, List.nil_append, Container.Elements] at hfull
  have hem : emitted w (w.Start env (ds.map deliver))
      = ds.map recvEvent ++ addEvents es ++ [Event.BulkFlush (env.bulkFlush w.flushCalls)]
        ++ (if (env.bulkFlush w.flushCalls).isNone then ackEvents es else []) :=
    emitted_append w _ _ (by rw [hfull]; simp)
  refine ⟨?_, by rw [hfull], hem, ?_⟩
  · intro k hk
    have hpre := start_below_batch env (ds.take k) (es.take k) w
      (by rw [List.map_take, List.map_take, hparse])
      (fun e he => hbulk e (List.mem_of_mem_take he))
      (fun d hd => htags d (List.mem_of_mem_take hd))
      (by simp only [hel, List.length_nil, Nat.cast_zero, zero_add, hcount, List.length_take,
            Nat.cast_lt]; omega)
    refine ⟨by rw [hpre], emitted_append w _ _ (by rw [hpre]), ?_⟩
    rw [hpre]
    simp [Container.Elements, hel]
  · rw [hem]
    simp only [bulkAdds_append, bulkAdds_recvEvents, bulkAdds_addEvents]
    have hflush : bulkAdds [Event.BulkFlush (env.bulkFlush w.flushCalls)] = [] := rfl
    split
    · rw [bulkAdds_ackEvents, hflush]; simp
    · rw [hflush]; simp [bulkAdds]

/-- Witness of C5: batch size 3 and the tags [11, 12, 13] of scenario S1, on a cluster
that accepts the flush: one bulk submission of the three elements in order, then the acks
for 11, 12 and 13. -/
theorem batch_size_trigger_witness :
    (1 ≤ batchOfThree.length ∧ (NewDog 3 false).count = batchOfThree.length) ∧
    emitted (NewDog 3 false)
      ((NewDog 3 false).Start (sampleEnv (fun _ => none) (fun _ => none))
        (batchOfThree.map deliver))
      = batchOfThree.map recvEvent ++ addEvents batchOfThreeElements
        ++ [Event.BulkFlush ((sampleEnv (fun _ => none) (fun _ => none)).bulkFlush
              (NewDog 3 false).flushCalls)]
        ++ (if ((sampleEnv (fun _ => none) (fun _ => none)).bulkFlush
              (NewDog 3 false).flushCalls).isNone
            then ackEvents batchOfThreeElements else []) :=
  ⟨⟨by decide, rfl⟩,
    (batch_size_trigger (sampleEnv (fun _ => none) (fun _ => none)) (NewDog 3 false)
      batchOfThree batchOfThreeElements (by decide) rfl rfl (by decide) rfl
      (by decide)).2.2.1⟩

/-! ## C6: the length of the buffer -/

theorem woooof_refused (env : Env) (v : Dog) (rt : String) (e : Element)
    (h : (rt = "update_by_query" ∧ env.UpdateByQueryService e ≠ none) ∨
      (rt = "delete_by_query" ∧ env.DeleteByQueryService e ≠ none) ∨
      (rt = "indices_create" ∧ env.IndicesCreateService e ≠ none) ∨
      (rt = "indices_delete" ∧ env.IndicesDeleteService e ≠ none) ∨
      (rt ≠ "update_by_query" ∧ rt ≠ "delete_by_query" ∧ rt ≠ "indices_create" ∧
        rt ≠ "indices_delete")) :
    (v.woooof env rt e).1 = v ∧ (v.woooof env rt e).2 ≠ none := by
  rcases h with ⟨h1, h2⟩ | ⟨h1, h2⟩ | ⟨h1, h2⟩ | ⟨h1, h2⟩ | ⟨h1, h2, h3, h4⟩
  · cases hs : env.UpdateByQueryService e with
    | none => exact absurd hs h2
    | some err => simp [Dog.woooof, h1, hs]
  · cases hs : env.DeleteByQueryService e with
    | none => exact absurd hs h2
    | some err => simp [Dog.woooof, h1, hs]
  · cases hs : env.IndicesCreateService e with
    | none => exact absurd hs h2
    | some err => simp [Dog.woooof, h1, hs]
  · cases hs : env.IndicesDeleteService e with
    | none => exact absurd hs h2
    | some err => simp [Dog.woooof, h1, hs]
  · simp [Dog.woooof, h1, h2, h3, h4]

theorem woooof_loop (env : Env) (v : Dog) (rt : String) (e : Element)
    (h : (rt = "update_by_query" ∧ env.UpdateByQueryService e = none) ∨
      (rt = "delete_by_query" ∧ env.DeleteByQueryService e = none)) :
    v.woooof env rt e = retryLoop env e conflictRetryIntervals v none := by
  rcases h with ⟨h1, h2⟩ | ⟨h1, h2⟩
  · simp [Dog.woooof, h1, h2]
  · simp [Dog.woooof, h1, h2]

/-- The five ways a call of `Dog.woooof` can go: refused before any call to the cluster,
the retry loop of a by-query, or the single call of an index creation or deletion. -/
theorem woooof_cases (env : Env) (rt : String) (e : Element) :
    ((rt = "update_by_query" ∧ env.UpdateByQueryService e ≠ none) ∨
      (rt = "delete_by_query" ∧ env.DeleteByQueryService e ≠ none) ∨
      (rt = "indices_create" ∧ env.IndicesCreateService e ≠ none) ∨
      (rt = "indices_delete" ∧ env.IndicesDeleteService e ≠ none) ∨
      (rt ≠ "update_by_query" ∧ rt ≠ "delete_by_query" ∧ rt ≠ "indices_create" ∧
        rt ≠ "indices_delete")) ∨
    ((rt = "update_by_query" ∧ env.UpdateByQueryService e = none) ∨
      (rt = "delete_by_query" ∧ env.DeleteByQueryService e = none)) ∨
    (rt = "indices_create" ∧ env.IndicesCreateService e = none) ∨
    (rt = "indices_delete" ∧ env.IndicesDeleteService e = none) := by
  by_cases h1 : rt = "update_by_query"
  · by_cases s1 : env.UpdateByQueryService e = none
    · exact Or.inr (Or.inl (Or.inl ⟨h1, s1⟩))
    · exact Or.inl (Or.inl ⟨h1, s1⟩)
  by_cases h2 : rt = "delete_by_query"
  · by_cases s2 : env.DeleteByQueryService e = none
    · exact Or.inr (Or.inl (Or.inr ⟨h2, s2⟩))
    · exact Or.inl (Or.inr (Or.inl ⟨h2, s2⟩))
  by_cases h3 : rt = "indices_create"
  · by_cases s3 : env.IndicesCreateService e = none
    · exact Or.inr (Or.inr (Or.inl ⟨h3, s3⟩))
    · exact Or.inl (Or.inr (Or.inr (Or.inl ⟨h3, s3⟩)))
  by_cases h4 : rt = "indices_delete"
  · by_cases s4 : env.IndicesDeleteService e = none
    · exact Or.inr (Or.inr (Or.inr ⟨h4, s4⟩))
    · exact Or.inl (Or.inr (Or.inr (Or.inr (Or.inl ⟨h4, s4⟩))))
  exact Or.inl (Or.inr (Or.inr (Or.inr (Or.inr ⟨h1, h2, h3, h4⟩))))

theorem woooof_frame (env : Env) (v : Dog) (rt : String) (e : Element) :
    (v.woooof env rt e).1.actions = v.actions ∧ (v.woooof env rt e).1.count = v.count ∧
    (v.woooof env rt e).1.flushCalls = v.flushCalls := by
  rcases woooof_cases env rt e with h | h | h | h
  · rw [(woooof_refused env v rt e h).1]
    exact ⟨rfl, rfl, rfl⟩
  · rw [woooof_loop env v rt e h]
    obtain ⟨k, -, -, -, -, -, hk⟩ := retryLoop_spec env e conflictRetryIntervals v none
    rw [hk]
    exact ⟨rfl, rfl, rfl⟩
  · rw [woooof_create env v rt e h.1 h.2]
    exact ⟨rfl, rfl, rfl⟩
  · rw [woooof_delete env v rt e h.1 h.2]
    exact ⟨rfl, rfl, rfl⟩

theorem woof_direct_frame (env : Env) (w : Dog) (tag : Nat) (body : String) (e : Element)
    (hparse : env.NewElement tag body = .ok e) (hkind : e.RequestType ≠ "bulkable") :
    (w.woof env tag body).1.actions = (w.barrier env).actions ∧
    (w.woof env tag body).1.count = (w.barrier env).count := by
  rw [woof_direct env w tag body e hparse hkind]
  obtain ⟨h1, h2, -⟩ := woooof_frame env (w.barrier env) e.RequestType e
  cases h : ((w.barrier env).woooof env e.RequestType e).2 with
  | none => exact ⟨h1, h2⟩
  | some err => exact ⟨h1, h2⟩

theorem barrier_frame (env : Env) (w : Dog) (hok : ∀ k, env.bulkFlush k = none) :
    (w.barrier env).actions.elements = [] ∧ (w.barrier env).count = w.count := by
  unfold Dog.barrier
  split
  · rw [flush_ok env w (hok _)]
    exact ⟨rfl, rfl⟩
  · rename_i h
    refine ⟨?_, rfl⟩
    simp only [Container.Length, gt_iff_lt, Nat.cast_pos, List.length_pos, ne_eq,
      not_not] at h
    exact h

theorem step_keeps_bound (env : Env) (hok : ∀ k, env.bulkFlush k = none) (w : Dog)
    (inc : Incoming) (h : w.actions.Length < w.count) :
    (w.step env inc).actions.Length < (w.step env inc).count ∧
    (w.step env inc).count = w.count := by
  have hpos : (0 : Int) < w.count :=
    lt_of_le_of_lt (by simp [Container.Length]) h
  cases inc with
  | Tick =>
    simp only [Dog.step]
    split
    · rw [flush_ok env w (hok _)]
      exact ⟨by simpa [Container.Length] using hpos, rfl⟩
    · exact ⟨h, rfl⟩
  | Delivery tag body =>
    by_cases htag : tag = 0
    · simp only [Dog.step, htag, if_true, Dog.emit]
      exact ⟨h, trivial⟩
    · cases hparse : env.NewElement tag body with
      | error err =>
        simp only [Dog.step, htag, if_false, Dog.woof, hparse, Dog.emit]
        exact ⟨h, trivial⟩
      | ok e =>
        by_cases hkind : e.RequestType = "bulkable"
        · rw [step_bulkable env w tag body e htag hparse hkind]
          split
          · rw [flush_ok env _ (hok _)]
            exact ⟨by simpa [Container.Length] using hpos, rfl⟩
          · rename_i hlt
            refine ⟨?_, rfl⟩
            simp only [Container.Length, List.length_append, List.length_singleton,
              Nat.cast_add, Nat.cast_one]
            omega
        · simp only [Dog.step, htag, if_false]
          obtain ⟨h1, h2⟩ := woof_direct_frame env (w.emit (.Recv tag body)) tag body e
            hparse hkind
          obtain ⟨h3, h4⟩ := barrier_frame env (w.emit (.Recv tag body)) hok
          rw [h2, h4]
          refine ⟨?_, rfl⟩
          simp only [Container.Length, h1, h3, List.length_nil, Nat.cast_zero]
          exact hpos

theorem start_keeps_bound (env : Env) (hok : ∀ k, env.bulkFlush k = none) :
    ∀ (incoming : List Incoming) (w : Dog), w.actions.Length < w.count →
      (w.Start env incoming).actions.Length < w.count := by
  intro incoming
  induction incoming with
  | nil => intro w h; exact h
  | cons inc rest ih =>
    intro w h
    obtain ⟨h1, h2⟩ := step_keeps_bound env hok w inc h
    have := ih (w.step env inc) h1
    rw [h2] at this
    simpa [Dog.Start] using this

/-- Counterexample to C6 as stated: batch size 1 and a cluster that refuses every bulk
flush; after two bulkable deliveries the buffer holds two elements. -/
theorem buffer_exceeds_count_after_failed_flush :
    ((NewDog 1 false).Start (sampleEnv bulkDown (fun _ => none))
        [.Delivery 1 "bulkable", .Delivery 2 "bulkable"]).UnitWorks = 2 ∧
    ¬ (((NewDog 1 false).Start (sampleEnv bulkDown (fun _ => none))
        [.Delivery 1 "bulkable", .Delivery 2 "bulkable"]).UnitWorks ≤ 1) := by
  decide

/-- C6, amended. For every batch size count ≥ 1 and every cluster on which every bulk
flush succeeds (the direct dispatches may succeed or fail), in every state reached from the
initial state by any sequence of ticks and deliveries the buffer length `Dog.UnitWorks`
does not exceed count (it even stays below it). -/
theorem buffer_bound_when_flushes_succeed (env : Env) (count : Int) (debug : Bool)
    (incoming : List Incoming) (hcount : 1 ≤ count) (hok : ∀ k, env.bulkFlush k = none) :
    ((NewDog count debug).Start env incoming).UnitWorks ≤ count ∧
    ((NewDog count debug).Start env incoming).UnitWorks < count := by
  have h := start_keeps_bound env hok incoming (NewDog count debug)
    (by simp only [NewDog, NewContainer, Container.Length, List.length_nil, Nat.cast_zero]
        omega)
  exact ⟨le_of_lt h, h⟩

/-- Witness of C6 amended: batch size 2, a cluster that accepts every flush, three bulkable
deliveries and a tick. -/
theorem buffer_bound_when_flushes_succeed_witness :
    (1 : Int) ≤ 2 ∧
    ((NewDog 2 false).Start (sampleEnv (fun _ => none) (fun _ => none))
      [.Delivery 1 "bulkable", .Delivery 2 "bulkable", .Delivery 3 "bulkable",
        .Tick]).UnitWorks ≤ 2 :=
  ⟨by decide,
    (buffer_bound_when_flushes_succeed (sampleEnv (fun _ => none) (fun _ => none)) 2 false
      [.Delivery 1 "bulkable", .Delivery 2 "bulkable", .Delivery 3 "bulkable", .Tick]
      (by decide) (fun _ => rfl)).1⟩

/-! ## Lemmas on the ledger -/

theorem ledger_append (a b : List Event) :
    ledger (a ++ b) = b.foldl Ledger.record (ledger a) := by
  simp [ledger, List.foldl_append]

theorem record_mono (l : Ledger) (ev : Event) :
    (∀ x ∈ l.flushed, x ∈ (l.record ev).flushed) ∧
    (∀ x ∈ l.dispatched, x ∈ (l.record ev).dispatched) := by
  cases ev with
  | BulkFlush err =>
    cases err with
    | none => exact ⟨fun x hx => by simp [Ledger.record, hx], fun x hx => hx⟩
    | some msg => exact ⟨fun x hx => hx, fun x hx => hx⟩
  | Do e r =>
    simp only [Ledger.record]
    split
    · exact ⟨fun x hx => hx, fun x hx => by simp [hx]⟩
    · exact ⟨fun x hx => hx, fun x hx => hx⟩
  | _ => exact ⟨fun x hx => hx, fun x hx => hx⟩

theorem foldl_record_mono (evs : List Event) :
    ∀ l : Ledger, (∀ x ∈ l.flushed, x ∈ (evs.foldl Ledger.record l).flushed) ∧
      (∀ x ∈ l.dispatched, x ∈ (evs.foldl Ledger.record l).dispatched) := by
  induction evs with
  | nil => intro l; exact ⟨fun x hx => hx, fun x hx => hx⟩
  | cons ev evs ih =>
    intro l
    obtain ⟨h1, h2⟩ := record_mono l ev
    obtain ⟨h3, h4⟩ := ih (l.record ev)
    exact ⟨fun x hx => h3 x (h1 x hx), fun x hx => h4 x (h2 x hx)⟩

theorem acceptedTags_mono (a b : List Event) (u : Nat) (h : u ∈ acceptedTags a) :
    u ∈ acceptedTags (a ++ b) := by
  simp only [acceptedTags, List.mem_map, List.mem_append] at h ⊢
  obtain ⟨x, hx, rfl⟩ := h
  rw [ledger_append]
  obtain ⟨h1, h2⟩ := foldl_record_mono b (ledger a)
  rcases hx with hx | hx
  · exact ⟨x, Or.inl (h1 x hx), rfl⟩
  · exact ⟨x, Or.inr (h2 x hx), rfl⟩

theorem foldl_record_adds (es : List Element) :
    ∀ l : Ledger, (addEvents es).foldl Ledger.record l
      = { l with pending := l.pending ++ es } := by
  induction es with
  | nil => intro l; simp [addEvents]
  | cons e es ih =>
    intro l
    simp only [addEvents, List.map_cons, List.foldl_cons] at ih ⊢
    rw [ih]
    simp [Ledger.record]

theorem foldl_record_acks (es : List Element) :
    ∀ l : Ledger, (ackEvents es).foldl Ledger.record l = l := by
  induction es with
  | nil => intro l; rfl
  | cons e es ih =>
    intro l
    simp only [ackEvents, List.map_cons, List.foldl_cons] at ih ⊢
    rw [show l.record (Event.Ack e.DeliveryTag true) = l from rfl, ih]

theorem flushed_after_ok_flush (tr : List Event) (es : List Element) :
    ∀ x ∈ es, x ∈ (ledger (tr ++ addEvents es ++ [Event.BulkFlush none])).flushed := by
  intro x hx
  rw [List.append_assoc, ledger_append, List.foldl_append, foldl_record_adds]
  simp [Ledger.record, hx]

theorem dispatched_of_do (evs : List Event) (e : Element) (r : Option String)
    (hmem : Event.Do e r ∈ evs) (hs : settles e r = true) :
    e ∈ (ledger evs).dispatched := by
  obtain ⟨a, b, rfl⟩ := List.append_of_mem hmem
  rw [show a ++ Event.Do e r :: b = (a ++ [Event.Do e r]) ++ b by simp, ledger_append]
  apply (foldl_record_mono b _).2
  rw [ledger_append]
  simp [Ledger.record, hs]

/-! ## What `Dog.woooof` records -/

theorem attemptEvents_shape (e : Element) :
    ∀ (intervals : List Nat) (answers : List (Option String)),
      ∀ ev ∈ attemptEvents e intervals answers,
        (∃ r, ev = Event.Do e r) ∨ (∃ s, ev = Event.Sleep s) := by
  intro intervals
  induction intervals with
  | nil => intro answers ev hev; simp [attemptEvents] at hev
  | cons iv rest ih =>
    intro answers ev hev
    cases answers with
    | nil => simp [attemptEvents] at hev
    | cons r answers =>
      simp only [attemptEvents, List.cons_append, List.mem_cons, List.mem_append] at hev
      rcases hev with h | h | h
      · exact Or.inl ⟨r, h⟩
      · split at h
        · simp only [List.mem_singleton] at h
          exact Or.inr ⟨iv, h⟩
        · simp at h
      · exact ih answers ev h

theorem attemptEvents_mem (e : Element) :
    ∀ (intervals : List Nat) (answers : List (Option String)),
      answers.length ≤ intervals.length →
      ∀ r ∈ answers, Event.Do e r ∈ attemptEvents e intervals answers := by
  intro intervals
  induction intervals with
  | nil =>
    intro answers hlen r hr
    cases answers with
    | nil => simp at hr
    | cons a answers => simp at hlen
  | cons iv rest ih =>
    intro answers hlen r hr
    cases answers with
    | nil => simp at hr
    | cons a answers =>
      simp only [List.length_cons, Nat.add_le_add_iff_right] at hlen
      simp only [attemptEvents, List.cons_append, List.mem_cons, List.mem_append]
      rcases List.mem_cons.1 hr with h | h
      · exact Or.inl (by rw [h])
      · exact Or.inr (Or.inr (ih answers hlen r h))

theorem answersFrom_length (env : Env) (base k : Nat) : (answersFrom env base k).length = k := by
  simp [answersFrom]

theorem answersFrom_last (env : Env) (base k : Nat) (hk : 1 ≤ k) :
    env.serviceDo (base + (k - 1)) ∈ answersFrom env base k := by
  simp only [answersFrom, List.mem_map, List.mem_range]
  exact ⟨k - 1, by omega, rfl⟩

/-- What a call of `Dog.woooof` records: only `Do` calls for the element and sleeps; and
when it returns no error, one of the `Do` calls got an answer that settles the element. -/
theorem woooof_emits (env : Env) (v : Dog) (rt : String) (e : Element) :
    ∃ new, (v.woooof env rt e).1.trace = v.trace ++ new ∧
      (∀ ev ∈ new, (∃ r, ev = Event.Do e r) ∨ (∃ s, ev = Event.Sleep s)) ∧
      ((v.woooof env rt e).2 = none → rt = e.RequestType →
        ∃ r, Event.Do e r ∈ new ∧ settles e r = true) := by
  rcases woooof_cases env rt e with h | h | h | h
  · obtain ⟨h1, h2⟩ := woooof_refused env v rt e h
    exact ⟨[], by rw [h1]; simp, by simp, fun hn => absurd hn h2⟩
  · rw [woooof_loop env v rt e h]
    obtain ⟨k, hk1, hk2, -, -, hk5, hk6⟩ := retryLoop_spec env e conflictRetryIntervals v none
    have hk2 : 1 ≤ k := hk2 (by simp [conflictRetryIntervals])
    refine ⟨attemptEvents e conflictRetryIntervals (answersFrom env v.doCalls k),
      by rw [hk6], attemptEvents_shape e _ _, ?_⟩
    intro hnone _
    rw [hk5, if_neg (by omega)] at hnone
    refine ⟨none, ?_, rfl⟩
    have := attemptEvents_mem e conflictRetryIntervals (answersFrom env v.doCalls k)
      (by rw [answersFrom_length]; exact hk1) _ (answersFrom_last env v.doCalls k hk2)
    rwa [hnone] at this
  · rw [woooof_create env v rt e h.1 h.2]
    refine ⟨[Event.Do e (env.serviceDo v.doCalls)], rfl, ?_, ?_⟩
    · intro ev hev
      simp only [List.mem_singleton] at hev
      exact Or.inl ⟨_, hev⟩
    · intro hnone hrt
      refine ⟨env.serviceDo v.doCalls, by simp, ?_⟩
      cases hr : env.serviceDo v.doCalls with
      | none => rfl
      | some msg =>
        simp only [hr] at hnone
        split at hnone
        · rename_i hc
          simp [settles, benign, ← hrt, h.1, hc]
        · simp at hnone
  · rw [woooof_delete env v rt e h.1 h.2]
    refine ⟨[Event.Do e (env.serviceDo v.doCalls)], rfl, ?_, ?_⟩
    · intro ev hev
      simp only [List.mem_singleton] at hev
      exact Or.inl ⟨_, hev⟩
    · intro hnone hrt
      refine ⟨env.serviceDo v.doCalls, by simp, ?_⟩
      cases hr : env.serviceDo v.doCalls with
      | none => rfl
      | some msg =>
        simp only [hr] at hnone
        split at hnone
        · rename_i hc
          simp [settles, benign, ← hrt, h.1, hc]
        · simp at hnone

/-! ## C4: the ordering barrier -/

theorem attempts_append (a b : List Event) : attempts (a ++ b) = attempts a ++ attempts b := by
  simp [attempts, List.filterMap_append]

theorem attempts_addEvents (es : List Element) : attempts (addEvents es) = [] := by
  induction es with
  | nil => rfl
  | cons e es ih =>
    simp only [addEvents, List.map_cons, attempts, List.filterMap_cons] at ih ⊢
    rw [ih]

theorem attempts_ackEvents (es : List Element) : attempts (ackEvents es) = [] := by
  induction es with
  | nil => rfl
  | cons e es ih =>
    simp only [ackEvents, List.map_cons, attempts, List.filterMap_cons] at ih ⊢
    rw [ih]

theorem barrier_trace (env : Env) (w : Dog) (hne : w.actions.Elements ≠ []) :
    (w.barrier env).trace
      = w.trace ++ (addEvents w.actions.Elements
          ++ [Event.BulkFlush (env.bulkFlush w.flushCalls)]
          ++ (if (env.bulkFlush w.flushCalls).isNone then ackEvents w.actions.Elements
              else [])
          ++ [Event.Sleep 2]) ∧
    (w.barrier env).actions
      = (if (env.bulkFlush w.flushCalls).isNone then ⟨[]⟩ else w.actions) := by
  have hlen : w.actions.Length > 0 := by
    simp only [Container.Length, gt_iff_lt, Nat.cast_pos, List.length_pos]
    exact hne
  unfold Dog.barrier
  rw [if_pos hlen, flush_eq]
  simp [Dog.emit]

/-- Counterexample to C4 as stated: the buffer holds the elements 30 and 31, the bulk
flush fails, and the `indices_create` of delivery 32 is still sent to the cluster (and
acked) while 30 and 31 are unapplied and still in the buffer. -/
theorem dispatch_after_failed_flush :
    (sampleDog.woof (sampleEnv bulkDown (fun _ => none)) 32 "indices_create").1.trace
      = [Event.BulkAdd ⟨30, "bulkable", "doc-30"⟩, Event.BulkAdd ⟨31, "bulkable", "doc-31"⟩,
          Event.BulkFlush (some "context deadline exceeded"), Event.Sleep 2,
          Event.Do ⟨32, "indices_create", "indices_create"⟩ none, Event.Ack 32 true] ∧
    (ledger (sampleDog.woof (sampleEnv bulkDown (fun _ => none)) 32
      "indices_create").1.trace).flushed = [] ∧
    (sampleDog.woof (sampleEnv bulkDown (fun _ => none)) 32 "indices_create").1.actions
      = sampleBuffer := by
  decide

/-- C4, amended. In a state with a non-empty buffer, for a delivery that parses to a
non-bulkable element: before `Dog.woooof` is started, `Dog.woof` has handed every buffered
element, in order, to the bulk processor, called `Flush` and slept 2 s, and no call of the
dispatch precedes that; everything `Dog.woof` records afterwards is a call of the dispatch,
a sleep of the retry loop or the final `Ack`. When that bulk flush returns no error, every
element that was in the buffer has been accepted in a bulk flush before the dispatch starts
and the buffer is empty. -/
theorem ordering_barrier (env : Env) (w : Dog) (tag : Nat) (body : String) (e : Element)
    (hne : w.actions.Elements ≠ [])
    (hparse : env.NewElement tag body = .ok e) (hkind : e.RequestType ≠ "bulkable") :
    (w.barrier env).trace
      = w.trace ++ (addEvents w.actions.Elements
          ++ [Event.BulkFlush (env.bulkFlush w.flushCalls)]
          ++ (if (env.bulkFlush w.flushCalls).isNone then ackEvents w.actions.Elements
              else [])
          ++ [Event.Sleep 2]) ∧
    attempts (emitted w (w.barrier env)) = [] ∧
    bulkAdds (emitted w (w.barrier env)) = w.actions.Elements ∧
    (∃ rest, (w.woof env tag body).1.trace = (w.barrier env).trace ++ rest ∧
      ∀ ev ∈ rest, (∃ r, ev = Event.Do e r) ∨ (∃ s, ev = Event.Sleep s) ∨
        ev = Event.Ack tag true) ∧
    (env.bulkFlush w.flushCalls = none →
      (∀ x ∈ w.actions.Elements, x ∈ (ledger (w.barrier env).trace).flushed) ∧
      (w.barrier env).actions.Length = 0) := by
  obtain ⟨hbt, hba⟩ := barrier_trace env w hne
  have hem := emitted_append w _ _ hbt
  refine ⟨hbt, ?_, ?_, ?_, ?_⟩
  · rw [hem]
    simp only [attempts_append, attempts_addEvents]
    split
    · rw [attempts_ackEvents]; rfl
    · rfl
  · rw [hem]
    simp only [bulkAdds_append, bulkAdds_addEvents]
    split
    · rw [bulkAdds_ackEvents]; simp [bulkAdds]
    · simp [bulkAdds]
  · obtain ⟨new, hnew, hshape, -⟩ := woooof_emits env (w.barrier env) e.RequestType e
    obtain ⟨-, htr⟩ := woof_ack_iff env w tag body e hparse hkind
    refine ⟨new ++ (if ((w.barrier env).woooof env e.RequestType e).2.isNone
      then [Event.Ack tag true] else []), by rw [htr, hnew, List.append_assoc], ?_⟩
    intro ev hev
    rcases List.mem_append.1 hev with h | h
    · rcases hshape ev h with h1 | h1
      · exact Or.inl h1
      · exact Or.inr (Or.inl h1)
    · split at h
      · simp only [List.mem_singleton] at h
        exact Or.inr (Or.inr h)
      · simp at h
  · intro hok
    rw [hok] at hbt hba
    simp only [Option.isNone_none, if_true] at hbt hba
    refine ⟨fun x hx => ?_, by rw [hba]; rfl⟩
    rw [hbt]
    have h1 := flushed_after_ok_flush w.trace w.actions.Elements x hx
    have h2 := (foldl_record_mono (ackEvents w.actions.Elements ++ [Event.Sleep 2])
      (ledger (w.trace ++ addEvents w.actions.Elements ++ [Event.BulkFlush none]))).1 x h1
    rw [← ledger_append] at h2
    simpa [List.append_assoc] using h2

/-- Witness of C4 amended: scenario S3, the buffer [30, 31] and the `indices_create` of
delivery 32 on a cluster that accepts the flush. -/
theorem ordering_barrier_witness :
    sampleDog.actions.Elements ≠ [] ∧
    (sampleEnv (fun _ => none) (fun _ => none)).NewElement 32 "indices_create"
      = .ok ⟨32, "indices_create", "indices_create"⟩ ∧
    (sampleDog.barrier (sampleEnv (fun _ => none) (fun _ => none))).trace
      = sampleDog.trace ++ (addEvents sampleDog.actions.Elements
          ++ [Event.BulkFlush ((sampleEnv (fun _ => none) (fun _ => none)).bulkFlush
                sampleDog.flushCalls)]
          ++ (if ((sampleEnv (fun _ => none) (fun _ => none)).bulkFlush
                sampleDog.flushCalls).isNone
              then ackEvents sampleDog.actions.Elements else [])
          ++ [Event.Sleep 2]) :=
  ⟨by decide, rfl,
    (ordering_barrier (sampleEnv (fun _ => none) (fun _ => none)) sampleDog 32
      "indices_create" ⟨32, "indices_create", "indices_create"⟩ (by decide) rfl
      (by decide)).1⟩

/-! ## C1: no premature ack -/

theorem aj_nil (tr : List Event) : AcksJustified tr [] := by
  intro pre t m post h
  simp at h

theorem aj_noack (tr new : List Event) (h : ∀ ev ∈ new, ev.isAck = false) :
    AcksJustified tr new := by
  intro pre t m post hnew
  have := h (Event.Ack t m) (by rw [hnew]; simp)
  simp [Event.isAck] at this

theorem aj_append (tr a b : List Event) (ha : AcksJustified tr a)
    (hb : AcksJustified (tr ++ a) b) : AcksJustified tr (a ++ b) := by
  intro pre t m post h
  rcases List.append_eq_append_iff.1 h with ⟨a', hpre, hb'⟩ | ⟨c', ha', hc'⟩
  · have := hb a' t m post hb'
    rwa [hpre, ← List.append_assoc]
  · cases c' with
    | nil =>
      simp only [List.nil_append] at hc'
      simp only [List.append_nil] at ha'
      have := hb [] t m post hc'.symm
      rwa [List.append_nil, ha'] at this
    | cons c cs =>
      simp only [List.cons_append, List.cons.injEq] at hc'
      obtain ⟨hc, -⟩ := hc'
      exact ha pre t m cs (by rw [ha', hc])

theorem aj_acks (tr : List Event) (es : List Element)
    (h : ∀ e ∈ es, e.DeliveryTag ∈ acceptedTags tr) : AcksJustified tr (ackEvents es) := by
  intro pre t m post hnew
  have hmem : Event.Ack t m ∈ ackEvents es := by rw [hnew]; simp
  simp only [ackEvents, List.mem_map] at hmem
  obtain ⟨e, he, heq⟩ := hmem
  simp only [Event.Ack.injEq] at heq
  rw [← heq.1]
  exact acceptedTags_mono tr pre _ (h e he)

theorem aj_single (tr : List Event) (t : Nat) (m : Bool) (h : t ∈ acceptedTags tr) :
    AcksJustified tr [Event.Ack t m] := by
  intro pre t' m' post hnew
  cases pre with
  | nil =>
    simp only [List.nil_append, List.cons.injEq, Event.Ack.injEq] at hnew
    rw [List.append_nil, ← hnew.1.1]
    exact h
  | cons p ps =>
    simp only [List.cons_append, List.cons.injEq] at hnew
    have := hnew.2
    simp at this

theorem continues_refl (tr : List Event) : Continues tr tr :=
  ⟨[], by simp, aj_nil tr⟩

theorem continues_trans (a b c : List Event) (h1 : Continues a b) (h2 : Continues b c) :
    Continues a c := by
  obtain ⟨n1, rfl, j1⟩ := h1
  obtain ⟨n2, rfl, j2⟩ := h2
  exact ⟨n1 ++ n2, by simp, aj_append a n1 n2 j1 j2⟩

theorem continues_noack (tr new : List Event) (h : ∀ ev ∈ new, ev.isAck = false) :
    Continues tr (tr ++ new) :=
  ⟨new, rfl, aj_noack tr new h⟩

theorem flush_continues (env : Env) (w : Dog) : Continues w.trace (w.flush env).trace := by
  rw [flush_eq]
  refine ⟨_, rfl, ?_⟩
  apply aj_append
  · apply aj_noack
    intro ev hev
    rcases List.mem_append.1 hev with h | h
    · obtain ⟨e, -, rfl⟩ := List.mem_map.1 h
      rfl
    · rw [List.mem_singleton] at h
      subst h
      rfl
  · cases hr : env.bulkFlush w.flushCalls with
    | some msg => exact aj_nil _
    | none =>
      simp only [Option.isNone_none, if_true]
      apply aj_acks
      intro e he
      simp only [acceptedTags, List.mem_map, List.mem_append]
      exact ⟨e, Or.inl (by
        have := flushed_after_ok_flush w.trace w.actions.Elements e he
        simpa [List.append_assoc] using this), rfl⟩

theorem barrier_continues (env : Env) (w : Dog) :
    Continues w.trace (w.barrier env).trace := by
  unfold Dog.barrier
  split
  · exact continues_trans _ _ _ (flush_continues env w)
      (continues_noack _ [Event.Sleep 2] (by simp [Event.isAck]))
  · exact continues_refl _

theorem woof_continues (env : Env) (w : Dog) (tag : Nat) (body : String)
    (htag : ∀ t b e, env.NewElement t b = .ok e → e.DeliveryTag = t) :
    Continues w.trace (w.woof env tag body).1.trace := by
  cases hparse : env.NewElement tag body with
  | error err =>
    simp only [Dog.woof, hparse]
    exact continues_refl _
  | ok e =>
    by_cases hkind : e.RequestType = "bulkable"
    · simp only [Dog.woof, hparse, hkind, ne_eq, not_true_eq_false, if_false]
      split
      · exact flush_continues env { w with actions := w.actions.Add e }
      · exact continues_refl _
    · obtain ⟨-, htr⟩ := woof_ack_iff env w tag body e hparse hkind
      obtain ⟨new, hnew, hshape, hsettle⟩ :=
        woooof_emits env (w.barrier env) e.RequestType e
      rw [htr, hnew]
      refine continues_trans _ _ _ (barrier_continues env w) ?_
      rw [List.append_assoc]
      refine ⟨_, rfl, ?_⟩
      apply aj_append
      · apply aj_noack
        intro ev hev
        rcases hshape ev hev with ⟨r, rfl⟩ | ⟨s, rfl⟩ <;> rfl
      · cases hres : ((w.barrier env).woooof env e.RequestType e).2 with
        | some err => exact aj_nil _
        | none =>
          simp only [Option.isNone_none, if_true]
          apply aj_single
          obtain ⟨r, hmem, hs⟩ := hsettle hres rfl
          simp only [acceptedTags, List.mem_map, List.mem_append]
          exact ⟨e, Or.inr (dispatched_of_do _ e r (by simp [hmem]) hs),
            htag tag body e hparse⟩

theorem step_continues (env : Env) (w : Dog) (inc : Incoming)
    (htag : ∀ t b e, env.NewElement t b = .ok e → e.DeliveryTag = t) :
    Continues w.trace (w.step env inc).trace := by
  cases inc with
  | Tick =>
    simp only [Dog.step]
    split
    · exact flush_continues env w
    · exact continues_refl _
  | Delivery tag body =>
    simp only [Dog.step]
    split
    · exact continues_noack _ [Event.Recv tag body, Event.Nack tag false false]
        (by simp [Event.isAck]) |> fun h => by simpa [Dog.emit] using h
    · exact continues_trans _ _ _
        (continues_noack _ [Event.Recv tag body] (by simp [Event.isAck]))
        (woof_continues env (w.emit (.Recv tag body)) tag body htag)

theorem start_continues (env : Env)
    (htag : ∀ t b e, env.NewElement t b = .ok e → e.DeliveryTag = t) :
    ∀ (incoming : List Incoming) (w : Dog), Continues w.trace (w.Start env incoming).trace := by
  intro incoming
  induction incoming with
  | nil => intro w; exact continues_refl _
  | cons inc rest ih =>
    intro w
    exact continues_trans _ _ _ (step_continues env w inc htag) (ih (w.step env inc))

/-- C1, the code at the failing input. Batch size 1; delivery 1 is an `update_by_query`
whose five attempts all fail, so `Dog.woof` withholds its `Ack` and the tag stays
outstanding; delivery 2 is bulkable and its flush succeeds. The loop then sends
`Ack(2, true)`: with `multiple` set the call covers the outstanding tag 1, which belongs to
no element the cluster has accepted, so the run has a premature ack. The same happens to
delivery 7, whose body does not parse, when delivery 8 is flushed. -/
theorem multiple_ack_covers_failed_delivery :
    ((NewDog 1 false).Start (sampleEnv (fun _ => none) serverDown)
        [.Delivery 1 "update_by_query", .Delivery 2 "bulkable"]).trace
      = failedThenFlushed ++ [Event.Ack 2 true] ∧
    outstanding failedThenFlushed = [1, 2] ∧
    acceptedTags failedThenFlushed = [2] ∧
    (1 ∈ covered failedThenFlushed 2 true ∧ 1 ∉ acceptedTags failedThenFlushed) ∧
    ¬ NoPrematureAck covered
      ((NewDog 1 false).Start (sampleEnv (fun _ => none) serverDown)
        [.Delivery 1 "update_by_query", .Delivery 2 "bulkable"]).trace ∧
    ¬ NoPrematureAck covered
      ((NewDog 1 false).Start (sampleEnv (fun _ => none) (fun _ => none))
        [.Delivery 7 "", .Delivery 8 "bulkable"]).trace := by
  refine ⟨by decide, by decide, by decide, ⟨by decide, by decide⟩, ?_, ?_⟩
  · intro h
    have h1 := h failedThenFlushed 2 true [] (by decide) 1 (by decide)
    revert h1
    decide
  · intro h
    have h1 := h
      [Event.Recv 7 "", Event.Recv 8 "bulkable", Event.BulkAdd ⟨8, "bulkable", "bulkable"⟩,
        Event.BulkFlush none]
      8 true [] (by decide) 7 (by decide)
    revert h1
    decide

/-- What the guards of `Dog.woof` (`err == nil` before the `Ack`) and the per-tag loop of
`Dog.flush` do establish: when the parser gives every element the tag of its delivery, the
tag named in every `Ack` belongs to an element the cluster has already accepted. The tags
such a call covers beyond the one it names are not protected by these guards. -/
theorem no_premature_ack_of_named_tag (env : Env) (count : Int) (debug : Bool)
    (incoming : List Incoming)
    (htag : ∀ t b e, env.NewElement t b = .ok e → e.DeliveryTag = t) :
    NoPrematureAck named ((NewDog count debug).Start env incoming).trace := by
  obtain ⟨new, hnew, hj⟩ := start_continues env htag incoming (NewDog count debug)
  intro pre t m post htr u hu
  simp only [named, List.mem_singleton] at hu
  subst hu
  have hnil : (NewDog count debug).trace = [] := rfl
  rw [hnew, hnil, List.nil_append] at htr
  have := hj pre u m post htr
  rwa [hnil, List.nil_append] at this

theorem sampleEnv_tag (bulk srv : Nat → Option String) :
    ∀ t b e, (sampleEnv bulk srv).NewElement t b = .ok e → e.DeliveryTag = t := by
  intro t b e h
  simp only [sampleEnv] at h
  split at h
  · cases h
  · injection h with h
    rw [← h]

/-- The named-tag property at the run of a failed `update_by_query` followed by a flushed
bulkable delivery. -/
theorem no_premature_ack_of_named_tag_witness :
    (∀ t b e, (sampleEnv (fun _ => none) serverDown).NewElement t b = .ok e →
      e.DeliveryTag = t) ∧
    NoPrematureAck named
      ((NewDog 1 false).Start (sampleEnv (fun _ => none) serverDown)
        [.Delivery 1 "update_by_query", .Delivery 2 "bulkable"]).trace :=
  ⟨sampleEnv_tag _ _,
    no_premature_ack_of_named_tag (sampleEnv (fun _ => none) serverDown) 1 false
      [.Delivery 1 "update_by_query", .Delivery 2 "bulkable"] (sampleEnv_tag _ _)⟩

end EsWriter
